import Mathlib

/-!
Verification of the clinical-trial ingestion pipeline
(`backend/app/services/crawler.py`, `clinicaltrials.py`, `firecrawl.py`,
`mongodb.py`) against its natural-language specification.

The Python source is shallowly embedded: pure functions become Lean
functions; the MongoDB crawl-index is an association list threaded through
the orchestrator; the external world (Firecrawl scraping, bulk-save
success/failure, the paginated registry) is passed in as explicit oracles.
Machine-level details that the source relies on are embedded faithfully:
`hashlib.md5` is implemented bit-for-bit over `Nat` with explicit
`% 2 ^ 32` reductions, and Python's f-string rendering of `None` is the
literal string "None".

Datetime-valued fields (`start_time`, `end_time`, `last_scraped`,
`created_at`, `updated_at`) and `print` logging are outside the embedding;
no claim refers to them.
-/

/-! ### MD5 over `Nat`, embedding `hashlib.md5(...).hexdigest()` -/

/-- 32-bit truncation. -/
def trunc32 (x : Nat) : Nat := x % 4294967296

/-- 32-bit addition. -/
def add32 (a b : Nat) : Nat := trunc32 (a + b)

/-- 32-bit left rotation (inputs assumed below `2 ^ 32`). -/
def rotl32 (x n : Nat) : Nat := trunc32 ((x <<< n) ||| (x >>> (32 - n)))

/-- Bitwise complement on 32 bits. -/
def not32 (x : Nat) : Nat := x ^^^ 4294967295

/-- The 64 MD5 sine-derived constants `K[i] = floor(2^32 * |sin(i+1)|)`. -/
def md5K : List Nat :=
  [3614090360, 3905402710, 606105819, 3250441966, 4118548399, 1200080426, 2821735955, 4249261313,
   1770035416, 2336552879, 4294925233, 2304563134, 1804603682, 4254626195, 2792965006, 1236535329,
   4129170786, 3225465664, 643717713, 3921069994, 3593408605, 38016083, 3634488961, 3889429448,
   568446438, 3275163606, 4107603335, 1163531501, 2850285829, 4243563512, 1735328473, 2368359562,
   4294588738, 2272392833, 1839030562, 4259657740, 2763975236, 1272893353, 4139469664, 3200236656,
   681279174, 3936430074, 3572445317, 76029189, 3654602809, 3873151461, 530742520, 3299628645,
   4096336452, 1126891415, 2878612391, 4237533241, 1700485571, 2399980690, 4293915773, 2240044497,
   1873313359, 4264355552, 2734768916, 1309151649, 4149444226, 3174756917, 718787259, 3951481745]

/-- The MD5 per-round left-rotation amounts. -/
def md5S : List Nat :=
  [7, 12, 17, 22, 7, 12, 17, 22, 7, 12, 17, 22, 7, 12, 17, 22,
   5, 9, 14, 20, 5, 9, 14, 20, 5, 9, 14, 20, 5, 9, 14, 20,
   4, 11, 16, 23, 4, 11, 16, 23, 4, 11, 16, 23, 4, 11, 16, 23,
   6, 10, 15, 21, 6, 10, 15, 21, 6, 10, 15, 21, 6, 10, 15, 21]

/-- MD5 nonlinear function and message-word index for round `i`. -/
def md5FG (i b c d : Nat) : Nat × Nat :=
  if i < 16 then ((b &&& c) ||| (not32 b &&& d), i)
  else if i < 32 then ((d &&& b) ||| (not32 d &&& c), (5 * i + 1) % 16)
  else if i < 48 then (b ^^^ c ^^^ d, (3 * i + 5) % 16)
  else (c ^^^ (b ||| not32 d), (7 * i) % 16)

/-- One MD5 round on the running state `(a, b, c, d)`. -/
def md5Step (m : List Nat) (st : Nat × Nat × Nat × Nat) (i : Nat) : Nat × Nat × Nat × Nat :=
  let (a, b, c, d) := st
  let (f, g) := md5FG i b c d
  let f' := add32 (add32 (add32 f a) (md5K.getD i 0)) (m.getD g 0)
  (d, add32 b (rotl32 f' (md5S.getD i 0)), b, c)

/-- Group a little-endian byte list into 32-bit words. -/
def bytesToWords : List Nat → List Nat
  | b0 :: b1 :: b2 :: b3 :: rest =>
      (b0 + b1 * 256 + b2 * 65536 + b3 * 16777216) :: bytesToWords rest
  | _ => []

/-- Split a byte list into 64-byte chunks (structural recursion on a fuel
bound so that the kernel can evaluate it; `fuel ≥ l.length` suffices). -/
def chunks64Fuel : Nat → List Nat → List (List Nat)
  | 0, _ => []
  | _, [] => []
  | fuel + 1, b :: rest => ((b :: rest).take 64) :: chunks64Fuel fuel ((b :: rest).drop 64)

/-- Split a byte list into 64-byte chunks. -/
def chunks64 (l : List Nat) : List (List Nat) := chunks64Fuel l.length l

/-- Process one 64-byte chunk, updating the four-word MD5 state. -/
def md5ProcessChunk (st : Nat × Nat × Nat × Nat) (chunk : List Nat) : Nat × Nat × Nat × Nat :=
  let m := bytesToWords chunk
  let (a0, b0, c0, d0) := st
  let (a, b, c, d) := (List.range 64).foldl (md5Step m) st
  (add32 a0 a, add32 b0 b, add32 c0 c, add32 d0 d)

/-- MD5 padding: append `0x80`, zero bytes to 56 mod 64, then the 64-bit
little-endian bit length of the original message. -/
def md5Pad (msg : List Nat) : List Nat :=
  let bitLen := 8 * msg.length
  let padLen := (55 + 64 - msg.length % 64) % 64 + 1
  msg ++ (128 :: List.replicate (padLen - 1) 0) ++
    ((List.range 8).map fun i => (bitLen >>> (8 * i)) % 256)

/-- The four bytes of a 32-bit word, little-endian. -/
def wordToLEBytes (w : Nat) : List Nat :=
  [w % 256, w / 256 % 256, w / 65536 % 256, w / 16777216 % 256]

/-- Lowercase hexadecimal digit. -/
def hexDigit (n : Nat) : Char :=
  if n < 10 then Char.ofNat (48 + n) else Char.ofNat (87 + n)

/-- Two lowercase hex digits of one byte. -/
def byteToHex (b : Nat) : List Char := [hexDigit (b / 16), hexDigit (b % 16)]

/-- UTF-8 encoding of one character, embedding Python `str.encode()`. -/
def utf8Bytes (c : Char) : List Nat :=
  let n := c.toNat
  if n < 128 then [n]
  else if n < 2048 then [192 ||| (n >>> 6), 128 ||| (n &&& 63)]
  else if n < 65536 then
    [224 ||| (n >>> 12), 128 ||| ((n >>> 6) &&& 63), 128 ||| (n &&& 63)]
  else
    [240 ||| (n >>> 18), 128 ||| ((n >>> 12) &&& 63), 128 ||| ((n >>> 6) &&& 63),
     128 ||| (n &&& 63)]

/-- MD5 digest of a byte list, as the four final state words. -/
def md5Words (msg : List Nat) : Nat × Nat × Nat × Nat :=
  (chunks64 (md5Pad msg)).foldl md5ProcessChunk (1732584193, 4023233417, 2562383102, 271733878)

/-- Embeds `hashlib.md5(s.encode()).hexdigest()`. -/
def md5hex (s : String) : String :=
  let msg := s.data.flatMap utf8Bytes
  let (a, b, c, d) := md5Words msg
  String.mk (((wordToLEBytes a ++ wordToLEBytes b ++ wordToLEBytes c ++ wordToLEBytes d).map byteToHex).flatten)

/-! ### Data model: raw registry records and the parsed (canonical) record

Python dicts with a fixed key set are embedded as structures whose fields
are `Option`-valued exactly where the Python value can be `None` or the key
can be absent; `.get(key, default)` on a possibly-missing nested section
becomes `Option.getD`. -/

/-- One entry of `contactsLocationsModule.locations` / parsed `locations`. -/
structure Location where
  facility : Option String
  city : Option String
  state : Option String
  country : Option String
  zip : Option String
deriving DecidableEq, Inhabited

/-- One entry of `centralContacts` / parsed `central_contacts`. -/
structure Contact where
  name : Option String
  role : Option String
  email : Option String
  phone : Option String
deriving DecidableEq, Inhabited

/-- One entry of `armsInterventionsModule.interventions` / parsed `interventions`. -/
structure Intervention where
  type : Option String
  name : Option String
  description : Option String
deriving DecidableEq, Inhabited

/-- One entry of `outcomesModule.primaryOutcomes`. -/
structure OutcomeMeasure where
  measure : Option String
  timeFrame : Option String
deriving DecidableEq, Inhabited

/-- A `{"date": ...}` wrapper such as `startDateStruct`. -/
structure DateStruct where
  date : Option String
deriving DecidableEq, Inhabited

/-- `protocolSection.identificationModule`. -/
structure IdentificationModule where
  nctId : Option String
  briefTitle : Option String
  officialTitle : Option String
deriving DecidableEq, Inhabited

/-- `protocolSection.statusModule`. -/
structure StatusModule where
  overallStatus : Option String
  startDateStruct : Option DateStruct
  completionDateStruct : Option DateStruct
  lastUpdateSubmitDate : Option String
deriving DecidableEq, Inhabited

/-- `designModule.enrollmentInfo`. -/
structure EnrollmentInfo where
  count : Option Int
deriving DecidableEq, Inhabited

/-- `protocolSection.designModule`. -/
structure DesignModule where
  phases : Option (List String)
  studyType : Option String
  enrollmentInfo : Option EnrollmentInfo
deriving DecidableEq, Inhabited

/-- `protocolSection.eligibilityModule`. -/
structure EligibilityModule where
  eligibilityCriteria : Option String
  minimumAge : Option String
  maximumAge : Option String
  sex : Option String
  healthyVolunteers : Option Bool
deriving DecidableEq, Inhabited

/-- `protocolSection.contactsLocationsModule`. -/
structure ContactsLocationsModule where
  locations : Option (List Location)
  centralContacts : Option (List Contact)
deriving DecidableEq, Inhabited

/-- `protocolSection.descriptionModule`. -/
structure DescriptionModule where
  briefSummary : Option String
  detailedDescription : Option String
deriving DecidableEq, Inhabited

/-- `sponsorCollaboratorsModule.leadSponsor`; collaborators carry a `name`. -/
structure SponsorRef where
  name : Option String
deriving DecidableEq, Inhabited

/-- `protocolSection.sponsorCollaboratorsModule`. -/
structure SponsorCollaboratorsModule where
  leadSponsor : Option SponsorRef
  collaborators : Option (List SponsorRef)
deriving DecidableEq, Inhabited

/-- `protocolSection.outcomesModule`. -/
structure OutcomesModule where
  primaryOutcomes : Option (List OutcomeMeasure)
deriving DecidableEq, Inhabited

/-- `protocolSection.armsInterventionsModule`. -/
structure ArmsInterventionsModule where
  interventions : Option (List Intervention)
deriving DecidableEq, Inhabited

/-- `protocolSection` of a raw ClinicalTrials.gov study object. -/
structure ProtocolSection where
  identificationModule : Option IdentificationModule
  statusModule : Option StatusModule
  designModule : Option DesignModule
  eligibilityModule : Option EligibilityModule
  contactsLocationsModule : Option ContactsLocationsModule
  descriptionModule : Option DescriptionModule
  sponsorCollaboratorsModule : Option SponsorCollaboratorsModule
  outcomesModule : Option OutcomesModule
  armsInterventionsModule : Option ArmsInterventionsModule
deriving DecidableEq, Inhabited

/-- A raw study object as returned by the registry API. -/
structure RawTrial where
  protocolSection : Option ProtocolSection
deriving DecidableEq, Inhabited

/-- A raw record missing every optional nested section. -/
def emptyRawTrial : RawTrial := { protocolSection := none }

/-- The dict returned by `parse_trial_data`: every key below is always
present; a field is `Option`-valued exactly when its value can be `None`.
`phase` and `source_url` are always strings in the source. -/
structure ParsedTrial where
  nct_id : Option String
  title : Option String
  official_title : Option String
  status : Option String
  start_date : Option String
  completion_date : Option String
  last_updated : Option String
  phase : String
  study_type : Option String
  enrollment : Option Int
  eligibility_criteria : Option String
  minimum_age : Option String
  maximum_age : Option String
  sex : Option String
  healthy_volunteers : Option Bool
  brief_summary : Option String
  detailed_description : Option String
  sponsor : Option String
  collaborators : List (Option String)
  locations : List Location
  central_contacts : List Contact
  interventions : List Intervention
  primary_outcomes : List OutcomeMeasure
  source_url : String
deriving DecidableEq, Inhabited

/-- Python f-string rendering of a `None`-able string value: `None` prints
as the text "None". -/
def pyStr : Option String → String
  | none => "None"
  | some s => s

/-- Python f-string rendering of a `None`-able integer value. -/
def pyInt : Option Int → String
  | none => "None"
  | some n => toString n

/-- Embeds `parse_trial_data` (clinicaltrials.py): normalizes one raw study
into the flat dict used by the rest of the pipeline. -/
def parse_trial_data (raw_trial : RawTrial) : ParsedTrial :=
  let protocol := raw_trial.protocolSection.getD default
  let identification := protocol.identificationModule.getD default
  let status_module := protocol.statusModule.getD default
  let design := protocol.designModule.getD default
  let eligibility := protocol.eligibilityModule.getD default
  let contacts := protocol.contactsLocationsModule.getD default
  let description := protocol.descriptionModule.getD default
  let sponsor_module := protocol.sponsorCollaboratorsModule.getD default
  let outcomes := protocol.outcomesModule.getD default
  let arms := protocol.armsInterventionsModule.getD default
  let phases := design.phases.getD []
  let phase_str := if phases.isEmpty then "N/A" else String.intercalate ", " phases
  { nct_id := identification.nctId
    title := identification.briefTitle
    official_title := identification.officialTitle
    status := status_module.overallStatus
    start_date := (status_module.startDateStruct.getD default).date
    completion_date := (status_module.completionDateStruct.getD default).date
    last_updated := status_module.lastUpdateSubmitDate
    phase := phase_str
    study_type := design.studyType
    enrollment := (design.enrollmentInfo.getD default).count
    eligibility_criteria := eligibility.eligibilityCriteria
    minimum_age := eligibility.minimumAge
    maximum_age := eligibility.maximumAge
    sex := eligibility.sex
    healthy_volunteers := eligibility.healthyVolunteers
    brief_summary := description.briefSummary
    detailed_description := description.detailedDescription
    sponsor := (sponsor_module.leadSponsor.getD default).name
    collaborators := (sponsor_module.collaborators.getD []).map SponsorRef.name
    locations := (contacts.locations.getD []).map fun loc =>
      { facility := loc.facility, city := loc.city, state := loc.state,
        country := loc.country, zip := loc.zip }
    central_contacts := (contacts.centralContacts.getD []).map fun c =>
      { name := c.name, role := c.role, email := c.email, phone := c.phone }
    interventions := (arms.interventions.getD []).map fun i =>
      { type := i.type, name := i.name, description := i.description }
    primary_outcomes := (outcomes.primaryOutcomes.getD []).map fun o =>
      { measure := o.measure, timeFrame := o.timeFrame }
    source_url := "https://clinicaltrials.gov/study/" ++ pyStr identification.nctId }

/-- Embeds `hash_trial_data` (crawler.py): MD5 of the concatenated title,
status and eligibility criteria.  The `.get(key, '')` defaults are dead
code for normalizer output (every key is present), so a `None` value
renders as the text "None" inside the f-string. -/
def hash_trial_data (trial : ParsedTrial) : String :=
  md5hex (pyStr trial.title ++ pyStr trial.status ++ pyStr trial.eligibility_criteria)

/-! ### `normalize_condition` and `normalize_phase` (crawler.py) -/

/-- The character class `[a-z0-9]` of the regex in `normalize_condition`. -/
def isLowerAlnum (c : Char) : Bool :=
  (97 ≤ c.toNat && c.toNat ≤ 122) || (48 ≤ c.toNat && c.toNat ≤ 57)

/-- Embeds `re.sub(r'[^a-z0-9]+', '_', s)`: each maximal run of characters
outside `[a-z0-9]` is replaced by a single underscore.  The flag records
whether the previous character was inside such a run. -/
def collapseNonAlnum : List Char → Bool → List Char
  | [], _ => []
  | c :: cs, inRun =>
    if isLowerAlnum c then c :: collapseNonAlnum cs false
    else if inRun then collapseNonAlnum cs true
    else '_' :: collapseNonAlnum cs true

/-- Embeds `str.strip('_')`: drop underscores from both ends. -/
def stripUnderscores (l : List Char) : List Char :=
  ((l.dropWhile fun c => c == '_').reverse.dropWhile fun c => c == '_').reverse

/-- `normalize_condition` on the character list: lower, collapse, strip.
Python `str.lower` is embedded as per-character `Char.toLower`
(ASCII-faithful; the one-to-many Unicode special casings are not modelled
and are irrelevant to the output alphabet). -/
def normalizeChars (l : List Char) : List Char :=
  stripUnderscores (collapseNonAlnum (l.map Char.toLower) false)

/-- Embeds `normalize_condition` (crawler.py). -/
def normalize_condition (condition : String) : String :=
  String.mk (normalizeChars condition.data)

/-- The output alphabet of `normalize_condition`: `[a-z0-9_]`. -/
def okChar (c : Char) : Bool := isLowerAlnum c || c == '_'

/-- No two adjacent underscores. -/
def noDoubleUnderscore (l : List Char) : Prop :=
  List.Chain' (fun a b => ¬(a = '_' ∧ b = '_')) l

/-- Substring test used for `'early' in phase_lower`. -/
def charsHasPrefix : List Char → List Char → Bool
  | [], _ => true
  | _ :: _, [] => false
  | p :: ps, c :: cs => p == c && charsHasPrefix ps cs

/-- Substring containment over character lists. -/
def charsContainsSub (pat : List Char) : List Char → Bool
  | [] => charsHasPrefix pat []
  | c :: cs => charsHasPrefix pat (c :: cs) || charsContainsSub pat cs

/-- Embeds `normalize_phase` (crawler.py).  Its argument is always the
`phase` string of a parsed trial, so `not phase` means the empty string. -/
def normalize_phase (phase : String) : String :=
  if phase == "" || phase == "N/A" || phase == "NA" then "other"
  else
    let phase_lower := phase.data.map Char.toLower
    if phase_lower.contains '1' && phase_lower.contains '2' then "phase1_2"
    else if phase_lower.contains '2' && phase_lower.contains '3' then "phase2_3"
    else if phase_lower.contains '1' then "phase1"
    else if phase_lower.contains '2' then "phase2"
    else if phase_lower.contains '3' then "phase3"
    else if phase_lower.contains '4' then "phase4"
    else if charsContainsSub "early".data phase_lower then "early_phase1"
    else "other"

/-! ### `generate_trial_markdown` (crawler.py)

The renderer is only ever called on `parse_trial_data` output, whose keys
are all present, so every `trial.get(key, placeholder)` returns the stored
value and the placeholder defaults (`'N/A'`, `'Unknown'`, `'All'`,
`'No description available.'`, ...) are dead code; a `None` value renders
as the f-string text "None". -/

/-- One line of the locations block. -/
def locationLine (loc : Location) : String :=
  "- " ++ pyStr loc.city ++ ", " ++ pyStr loc.state ++ " " ++ pyStr loc.country ++
    " - " ++ pyStr loc.facility

/-- One line of the contacts block. -/
def contactLine (c : Contact) : String :=
  "- " ++ pyStr c.name ++ " (" ++ pyStr c.role ++ "): " ++ pyStr c.email ++
    ", " ++ pyStr c.phone

/-- One line of the interventions block; the description suffix is emitted
only when `i.get('description')` is truthy (non-None and non-empty). -/
def interventionLine (i : Intervention) : String :=
  "- **" ++ pyStr i.type ++ ":** " ++ pyStr i.name ++
    (match i.description with
     | some d => if d == "" then "" else " - " ++ d
     | none => "")

/-- Embeds `generate_trial_markdown` (crawler.py). -/
def generate_trial_markdown (trial : ParsedTrial) : String :=
  let location_list :=
    if trial.locations.isEmpty then "- No locations listed"
    else String.intercalate "\n" (trial.locations.map locationLine)
  let contact_list :=
    if trial.central_contacts.isEmpty then "- No central contacts listed"
    else String.intercalate "\n" (trial.central_contacts.map contactLine)
  let intervention_list :=
    if trial.interventions.isEmpty then "- No interventions listed"
    else String.intercalate "\n" (trial.interventions.map interventionLine)
  "# Trial: " ++ pyStr trial.nct_id ++ "\n\n" ++
  "## Basic Info\n" ++
  "- **Title:** " ++ pyStr trial.title ++ "\n" ++
  "- **Official Title:** " ++ pyStr trial.official_title ++ "\n" ++
  "- **Phase:** " ++ trial.phase ++ "\n" ++
  "- **Status:** " ++ pyStr trial.status ++ "\n" ++
  "- **Study Type:** " ++ pyStr trial.study_type ++ "\n" ++
  "- **Sponsor:** " ++ pyStr trial.sponsor ++ "\n" ++
  "- **Enrollment:** " ++ pyInt trial.enrollment ++ " participants\n\n" ++
  "## Description\n" ++ pyStr trial.brief_summary ++ "\n\n" ++
  "## Interventions\n" ++ intervention_list ++ "\n\n" ++
  "## Eligibility Criteria\n\n" ++ pyStr trial.eligibility_criteria ++ "\n\n" ++
  "### Key Requirements\n" ++
  "- **Minimum Age:** " ++ pyStr trial.minimum_age ++ "\n" ++
  "- **Maximum Age:** " ++ pyStr trial.maximum_age ++ "\n" ++
  "- **Sex:** " ++ pyStr trial.sex ++ "\n" ++
  "- **Healthy Volunteers:** " ++
    (if trial.healthy_volunteers == some true then "Yes" else "No") ++ "\n\n" ++
  "## Locations\n" ++ location_list ++ "\n\n" ++
  "## Contacts\n" ++ contact_list ++ "\n\n" ++
  "## Dates\n" ++
  "- **Start Date:** " ++ pyStr trial.start_date ++ "\n" ++
  "- **Completion Date:** " ++ pyStr trial.completion_date ++ "\n" ++
  "- **Last Updated:** " ++ pyStr trial.last_updated ++ "\n\n" ++
  "## Source\n" ++
  "- **ClinicalTrials.gov:** " ++ trial.source_url ++ "\n" ++
  "- **NCT ID:** " ++ pyStr trial.nct_id ++ "\n"

/-! ### Crawl-state store (mongodb.py `crawl_index`)

`get_all_crawl_records` loads the index as a dict keyed by `nct_id`;
`update_crawl_record` upserts `{source_hash, last_scraped}` by `nct_id`.
The dict is embedded as an association list with first-match lookup.  The
key is `Option String` because `parsed["nct_id"]` can be `None`; the stored
document's `source_hash` is `Option String` because `.get("source_hash")`
on a pre-existing document can miss.  `last_scraped` is a datetime and is
outside the embedding. -/

/-- One `crawl_index` document (minus `_id` and `last_scraped`). -/
structure CrawlEntry where
  source_hash : Option String
deriving DecidableEq, Inhabited

/-- The `crawl_index` collection as a keyed map. -/
abbrev CrawlState := List (Option String × CrawlEntry)

/-- Embeds the dict built by `get_all_crawl_records` (`.get(nct_id)`). -/
def lookupCrawl : CrawlState → Option String → Option CrawlEntry
  | [], _ => none
  | (k, e) :: rest, key => if k = key then some e else lookupCrawl rest key

/-- Embeds `update_crawl_record`: upsert of `source_hash` under `nct_id`. -/
def update_crawl_record : CrawlState → Option String → String → CrawlState
  | [], key, h => [(key, { source_hash := some h })]
  | (k, e) :: rest, key, h =>
    if k = key then (key, { source_hash := some h }) :: rest
    else (k, e) :: update_crawl_record rest key h

/-- Embeds `get_all_crawl_records` (mongodb.py): the `crawl_index` cursor is
materialized with `to_list(length=10000)`, so the dict the dedup check
consults holds at most the first 10000 documents of the collection.  The
collection has a unique index on `nct_id` (`create_indexes`), so keys are
distinct and the dict comprehension agrees with first-match lookup on the
prefix. -/
def get_all_crawl_records (db : CrawlState) : CrawlState := db.take 10000

/-! ### External world oracles (firecrawl.py, mongodb.py `save_trials`) -/

/-- The dict returned by `scrape_url`: `success` is always present; the
`markdown` key exists only in the success branch and its value may still be
absent. -/
structure ScrapeResult where
  success : Bool
  markdown : Option String
deriving DecidableEq, Inhabited

/-- Outcome of one `scrape_trial_page` call: a returned dict or a raised
exception (caught by the per-record enrichment handler in `run_crawl`). -/
inductive ScrapeOutcome where
  | ret : ScrapeResult → ScrapeOutcome
  | exn : String → ScrapeOutcome
deriving DecidableEq, Inhabited

/-- The effectful collaborators of one `run_crawl` invocation: the Firecrawl
scraper keyed by `parsed["nct_id"]`, and whether the single `save_trials`
bulk write raises (`some message`) or succeeds (`none`). -/
structure World where
  scrape : Option String → ScrapeOutcome
  saveFails : Option String

/-- A fetched element of `result["trials"]`.  Python values are untyped:
`wellFormed` carries a record that `parse_trial_data` processes normally,
`malformed` stands for a value whose processing raises (e.g. a non-dict),
with the exception message it raises. -/
inductive RawInput where
  | wellFormed : RawTrial → RawInput
  | malformed : String → RawInput
deriving DecidableEq, Inhabited

/-- The `stats` dict of `run_crawl` (datetimes omitted). -/
structure CrawlStats where
  condition : String
  total_fetched : Nat
  new_trials : Nat
  updated_trials : Nat
  skipped_trials : Nat
  errors : List String
deriving DecidableEq, Inhabited

/-- One pending document of `trials_to_save` (`{**parsed, ...}`). -/
structure TrialDoc where
  trial : ParsedTrial
  condition : String
  normalized_phase : String
  markdown_content : String
  enriched_content : Option String
  source_hash : String
deriving DecidableEq, Inhabited

/-- The mutable state of the per-trial loop in `run_crawl`: the `stats`
dict, the (already persisted) crawl index, and `trials_to_save`. -/
structure LoopSt where
  stats : CrawlStats
  db : CrawlState
  trials_to_save : List TrialDoc
deriving Inhabited

/-- Whether `not force_refresh and existing_record and
existing_record.get("source_hash") == source_hash` holds. -/
def hashMatches (existing : Option CrawlEntry) (h : String) : Bool :=
  match existing with
  | some e => e.source_hash == some h
  | none => false

/-- The body of the `for raw_trial in raw_trials` loop of `run_crawl`, after
a successful `parse_trial_data`: classify against `existing_records` — the
dict loaded once by `get_all_crawl_records` before the loop, never updated
during it — then skip, or (optionally enrich, render, batch, upsert the
crawl record into the live collection `ls.db`). -/
def processParsed (w : World) (enrich_with_firecrawl force_refresh : Bool)
    (normalized_condition : String) (existing_records : CrawlState)
    (ls : LoopSt) (parsed : ParsedTrial) : LoopSt :=
  let source_hash := hash_trial_data parsed
  let existing_record := lookupCrawl existing_records parsed.nct_id
  if !force_refresh && hashMatches existing_record source_hash then
    { ls with stats := { ls.stats with skipped_trials := ls.stats.skipped_trials + 1 } }
  else
    let is_new := existing_record = none
    let stats' :=
      if is_new then { ls.stats with new_trials := ls.stats.new_trials + 1 }
      else { ls.stats with updated_trials := ls.stats.updated_trials + 1 }
    let enriched_content :=
      if enrich_with_firecrawl then
        match w.scrape parsed.nct_id with
        | .ret scraped => if scraped.success then scraped.markdown else none
        | .exn _ => none
      else none
    let trial_doc : TrialDoc :=
      { trial := parsed
        condition := normalized_condition
        normalized_phase := normalize_phase parsed.phase
        markdown_content := generate_trial_markdown parsed
        enriched_content := enriched_content
        source_hash := source_hash }
    { stats := stats'
      db := update_crawl_record ls.db parsed.nct_id source_hash
      trials_to_save := ls.trials_to_save ++ [trial_doc] }

/-- One loop iteration on an untyped fetched value: a malformed value makes
`parse_trial_data` raise, carrying the loop state at the raise point. -/
def processOne (w : World) (enrich_with_firecrawl force_refresh : Bool)
    (normalized_condition : String) (existing_records : CrawlState) (ls : LoopSt) :
    RawInput → Except (String × LoopSt) LoopSt
  | .wellFormed raw => .ok (processParsed w enrich_with_firecrawl force_refresh
      normalized_condition existing_records ls (parse_trial_data raw))
  | .malformed msg => .error (msg, ls)

/-- The loop itself: left-to-right, stopping at the first raised exception
(there is no per-record `try` in the source; the only handler wraps the
whole run). -/
def crawlLoop (w : World) (enrich_with_firecrawl force_refresh : Bool)
    (normalized_condition : String) (existing_records : CrawlState) :
    LoopSt → List RawInput → Except (String × LoopSt) LoopSt
  | ls, [] => .ok ls
  | ls, raw :: rest =>
    match processOne w enrich_with_firecrawl force_refresh normalized_condition
        existing_records ls raw with
    | .ok ls' => crawlLoop w enrich_with_firecrawl force_refresh normalized_condition
        existing_records ls' rest
    | .error e => .error e

/-- Result of one `run_crawl` invocation: the returned `stats`, the final
crawl index, and — when the bulk save both ran and succeeded — the list of
documents handed to `save_trials` (`none` when nothing reached the store). -/
structure RunResult where
  stats : CrawlStats
  db : CrawlState
  saved : Option (List TrialDoc)
deriving Inhabited

/-- The `stats` dict as initialized at the top of `run_crawl`. -/
def initStats (condition : String) (total_fetched : Nat) : CrawlStats :=
  { condition := condition, total_fetched := total_fetched,
    new_trials := 0, updated_trials := 0, skipped_trials := 0, errors := [] }

/-- The loop state at the top of Step 3 of `run_crawl`. -/
def initLoopSt (condition : String) (raw_trials : List RawInput) (db0 : CrawlState) : LoopSt :=
  { stats := initStats condition raw_trials.length, db := db0, trials_to_save := [] }

/-- Embeds `run_crawl` (crawler.py) after the fetch step: `raw_trials` is
`result["trials"]`, `db0` the persisted `crawl_index` collection.  Step 2
loads the dedup dict once via `get_all_crawl_records` — at most the first
10000 documents — and the loop consults that snapshot while upserting the
live collection.  The run-level `try/except` catches any exception from
the loop or from `save_trials`, appends its message to `stats["errors"]`
and still returns `stats`. -/
def run_crawl (w : World) (condition : String)
    (enrich_with_firecrawl force_refresh : Bool)
    (raw_trials : List RawInput) (db0 : CrawlState) : RunResult :=
  if raw_trials.isEmpty then
    { stats := initStats condition raw_trials.length, db := db0, saved := none }
  else
    let normalized_condition := normalize_condition condition
    let existing_records := get_all_crawl_records db0
    match crawlLoop w enrich_with_firecrawl force_refresh normalized_condition
        existing_records (initLoopSt condition raw_trials db0) raw_trials with
    | .error (msg, ls) =>
      { stats := { ls.stats with errors := ls.stats.errors ++ [msg] },
        db := ls.db, saved := none }
    | .ok ls =>
      if ls.trials_to_save.isEmpty then
        { stats := ls.stats, db := ls.db, saved := none }
      else
        match w.saveFails with
        | none => { stats := ls.stats, db := ls.db, saved := some ls.trials_to_save }
        | some msg =>
          { stats := { ls.stats with errors := ls.stats.errors ++ [msg] },
            db := ls.db, saved := none }

/-- Well-formed fetched data: every element parses. -/
def wfInputs (rts : List RawTrial) : List RawInput := rts.map RawInput.wellFormed

/-- The loop restricted to well-formed input, as a plain fold. -/
def runLoopWF (w : World) (enrich_with_firecrawl force_refresh : Bool)
    (normalized_condition : String) (existing_records : CrawlState)
    (ls : LoopSt) (rts : List RawTrial) : LoopSt :=
  rts.foldl (fun ls r => processParsed w enrich_with_firecrawl force_refresh
    normalized_condition existing_records ls (parse_trial_data r)) ls

/-! ### `fetch_all_trials` (clinicaltrials.py) -/

/-- The dict returned by one `fetch_trials` call. -/
structure FetchPage where
  trials : List RawInput
  next_page_token : Option String
  total_count : Int
deriving Inhabited

/-- Python truthiness of `not result["next_page_token"]`: `None` and the
empty string are falsy. -/
def tokenFalsy : Option String → Bool
  | none => true
  | some t => t == ""

/-- The `while len(all_trials) < max_trials` loop of `fetch_all_trials`.
The upstream registry is an oracle from (call index, requested page size,
page token) to the returned page, so any sequence of upstream responses is
covered.  Each iteration that recurses appended a nonempty page, so
`max_trials - all_trials.length` strictly decreases. -/
def fetchAllLoop (fetch : Nat → Nat → Option String → FetchPage) (max_trials : Nat) :
    Nat → List RawInput → Option String → List RawInput
  | call, all_trials, page_token =>
    if all_trials.length < max_trials then
      let page_size := min 50 (max_trials - all_trials.length)
      let result := fetch call page_size page_token
      let all' := all_trials ++ result.trials
      if tokenFalsy result.next_page_token || result.trials.isEmpty then all'
      else fetchAllLoop fetch max_trials (call + 1) all' result.next_page_token
    else all_trials
termination_by _ all_trials _ => max_trials - all_trials.length
decreasing_by
  rename_i hlt hcont
  simp only [List.length_append]
  have hne : ¬ (fetch call (min 50 (max_trials - all_trials.length)) page_token).trials.isEmpty = true := by
    intro h
    simp [h] at hcont
  have hpos : 0 < (fetch call (min 50 (max_trials - all_trials.length)) page_token).trials.length := by
    cases hl : (fetch call (min 50 (max_trials - all_trials.length)) page_token).trials with
    | nil => exact absurd (by simp [hl]) hne
    | cons a t => simp [hl]
  omega

/-- Embeds `fetch_all_trials` (clinicaltrials.py). -/
def fetch_all_trials (fetch : Nat → Nat → Option String → FetchPage)
    (max_trials : Nat) : List RawInput :=
  fetchAllLoop fetch max_trials 0 [] none

/-! ### Observation predicates and concrete fixtures used by the claims -/

/-- The record was counted as new: `new_trials` stepped, the other two
per-record counters did not. -/
def countsNew (ls ls' : LoopSt) : Prop :=
  ls'.stats.new_trials = ls.stats.new_trials + 1 ∧
  ls'.stats.updated_trials = ls.stats.updated_trials ∧
  ls'.stats.skipped_trials = ls.stats.skipped_trials

/-- The record was counted as updated. -/
def countsUpdated (ls ls' : LoopSt) : Prop :=
  ls'.stats.updated_trials = ls.stats.updated_trials + 1 ∧
  ls'.stats.new_trials = ls.stats.new_trials ∧
  ls'.stats.skipped_trials = ls.stats.skipped_trials

/-- The record was skipped as unchanged. -/
def countsSkipped (ls ls' : LoopSt) : Prop :=
  ls'.stats.skipped_trials = ls.stats.skipped_trials + 1 ∧
  ls'.stats.new_trials = ls.stats.new_trials ∧
  ls'.stats.updated_trials = ls.stats.updated_trials

/-- The enrichment call failed: it returned `success: False` or raised. -/
def scrapeFails : ScrapeOutcome → Prop
  | .ret r => r.success = false
  | .exn _ => True

/-- Modelled from the spec: "null treated as empty string" on one
digest-relevant field. -/
def nullAsEmpty : Option String → String
  | none => ""
  | some s => s

/-- Modelled from the spec: the claim's agreement relation on the three
digest-relevant fields, null treated as empty string. -/
def digestFieldsAgree (t1 t2 : ParsedTrial) : Prop :=
  nullAsEmpty t1.title = nullAsEmpty t2.title ∧
  nullAsEmpty t1.status = nullAsEmpty t2.status ∧
  nullAsEmpty t1.eligibility_criteria = nullAsEmpty t2.eligibility_criteria

/-- Modelled from the spec: the claimed shape of `parse_trial_data` output
on a record missing every optional section — null for every missing scalar
and the empty list for every missing list.  For the two fields the code
always populates with strings: per spec §4.2 `phase` is the ", "-join of
the phase tags (absent, hence the empty join) and per §3 no placeholder
string may be baked into a structured field; `source_url` is only required
to be derived from the identifier, so it is unconstrained here. -/
def claimedNullParse (t : ParsedTrial) : Prop :=
  t.nct_id = none ∧ t.title = none ∧ t.official_title = none ∧ t.status = none ∧
  t.start_date = none ∧ t.completion_date = none ∧ t.last_updated = none ∧
  t.phase = "" ∧ t.study_type = none ∧ t.enrollment = none ∧
  t.eligibility_criteria = none ∧ t.minimum_age = none ∧ t.maximum_age = none ∧
  t.sex = none ∧ t.healthy_volunteers = none ∧ t.brief_summary = none ∧
  t.detailed_description = none ∧ t.sponsor = none ∧ t.collaborators = [] ∧
  t.locations = [] ∧ t.central_contacts = [] ∧ t.interventions = [] ∧
  t.primary_outcomes = []

/-- A world whose scraper always reports failure and whose bulk save
succeeds. -/
def noScrapeWorld : World :=
  { scrape := fun _ => ScrapeOutcome.ret { success := false, markdown := none },
    saveFails := none }

/-- Same scraper, but the single bulk save raises. -/
def failingSaveWorld : World := { noScrapeWorld with saveFails := some "db down" }

/-- The parse of the all-missing raw record. -/
def nullParsed : ParsedTrial := parse_trial_data emptyRawTrial

/-- `nullParsed` with the three digest-relevant fields set to empty strings
instead of null. -/
def emptiedFieldsParsed : ParsedTrial :=
  { nullParsed with title := some "", status := some "", eligibility_criteria := some "" }

/-- A minimal well-formed raw trial with a real identifier. -/
def sampleFreshTrial : RawTrial :=
  { protocolSection := some
      { identificationModule := some
          { nctId := some "NCT00000001", briefTitle := some "Sample study",
            officialTitle := none }
        statusModule := none, designModule := none, eligibilityModule := none
        contactsLocationsModule := none, descriptionModule := none
        sponsorCollaboratorsModule := none, outcomesModule := none
        armsInterventionsModule := none } }

/-- An empty-store loop state over one fetched record. -/
def emptyLoopSt : LoopSt :=
  { stats := initStats "glioma" 1, db := [], trials_to_save := [] }

/-- A crawl index already holding 10000 documents, none of them for
`sampleFreshTrial`: exactly fills the `get_all_crawl_records` snapshot
window, so entries appended after it are invisible to the next run. -/
def fillerDb : CrawlState :=
  (List.range 10000).map fun i =>
    (some ("F" ++ toString i), ({ source_hash := some "x" } : CrawlEntry))

/-! ### Theorems

Sanity anchors first: the MD5 embedding reproduces standard reference
digests. -/

set_option maxRecDepth 10000 in
theorem md5hex_empty_string : md5hex "" = "d41d8cd98f00b204e9800998ecf8427e" := by decide

set_option maxRecDepth 10000 in
theorem md5hex_reference_vector :
    md5hex "The quick brown fox jumps over the lazy dog" =
      "9e107d9d372bb6826bd81d3542a419d6" := by decide

/-! #### C7: pagination bound -/

/-- Auxiliary bound for the pagination loop, by induction on the remaining
budget `max_trials - acc.length`. -/
theorem fetchAllLoop_length_le (fetch : Nat → Nat → Option String → FetchPage)
    (hpage : ∀ call ps tok, (fetch call ps tok).trials.length ≤ ps) (max_trials : Nat) :
    ∀ (n call : Nat) (acc : List RawInput) (tok : Option String),
      max_trials - acc.length ≤ n → acc.length ≤ max_trials →
      (fetchAllLoop fetch max_trials call acc tok).length ≤ max_trials := by
  intro n
  induction n with
  | zero =>
    intro call acc tok hn hle
    rw [fetchAllLoop]
    have hnlt : ¬ acc.length < max_trials := by omega
    simp only [hnlt, if_false]
    exact hle
  | succ n ih =>
    intro call acc tok hn hle
    rw [fetchAllLoop]
    by_cases hlt : acc.length < max_trials
    · simp only [hlt, if_true]
      have hps := hpage call (min 50 (max_trials - acc.length)) tok
      by_cases hbrk : (tokenFalsy (fetch call (min 50 (max_trials - acc.length)) tok).next_page_token
          || (fetch call (min 50 (max_trials - acc.length)) tok).trials.isEmpty) = true
      · simp only [hbrk, if_true, List.length_append]
        omega
      · simp only [hbrk, if_false]
        have hne : (fetch call (min 50 (max_trials - acc.length)) tok).trials ≠ [] := by
          intro h
          simp [h] at hbrk
        have hpos : 0 < (fetch call (min 50 (max_trials - acc.length)) tok).trials.length :=
          List.length_pos.mpr hne
        apply ih
        · simp only [List.length_append]
          omega
        · simp only [List.length_append]
          omega
    · simp only [hlt, if_false]
      exact hle

/-- C7 (confirmed).  Pagination bound: if every page the upstream returns
holds at most the requested page size, `fetch_all_trials` with
`max_trials = N` returns at most `N` records.  Termination — even when the
upstream keeps reporting more pages (`total_count` is never consulted) —
is established by the definition of `fetchAllLoop` itself, whose measure
`max_trials - all_trials.length` strictly decreases because the loop only
continues after appending a nonempty page. -/
theorem fetch_all_trials_bounded (fetch : Nat → Nat → Option String → FetchPage)
    (hpage : ∀ call ps tok, (fetch call ps tok).trials.length ≤ ps) (max_trials : Nat) :
    (fetch_all_trials fetch max_trials).length ≤ max_trials := by
  unfold fetch_all_trials
  exact fetchAllLoop_length_le fetch hpage max_trials max_trials 0 [] none (by simp) (by simp)

/-- Witness for C7: a concrete upstream that always returns one-record pages
with a next token, cut off at `max_trials = 3`. -/
theorem fetch_all_trials_bounded_witness :
    (fetch_all_trials
        (fun _ ps _ =>
          { trials := List.replicate (min ps 1) (RawInput.wellFormed emptyRawTrial),
            next_page_token := some "tok", total_count := 1000 }) 3).length ≤ 3 :=
  fetch_all_trials_bounded _ (by intro call ps tok; simp) 3

/-! #### C9: normalizer totality and null substitution -/

/-- C9 counterexample.  On the record missing every optional nested section
the parse does not match the claimed all-null shape: `phase` is the
placeholder string "N/A" rather than a null/empty derivation. -/
theorem parse_null_substitution_counterexample :
    ¬ claimedNullParse (parse_trial_data emptyRawTrial) := by
  unfold claimedNullParse
  decide

/-- C9 (amended).  `parse_trial_data` on a record missing every optional
nested section returns (without raising — it is a total function) the
record with null for every missing scalar and `[]` for every missing list,
except that `phase` is set to the placeholder string "N/A" and
`source_url` is the study URL built from the missing identifier, rendering
its `None` into the text. -/
theorem parse_empty_record :
    parse_trial_data emptyRawTrial =
      { nct_id := none, title := none, official_title := none, status := none,
        start_date := none, completion_date := none, last_updated := none,
        phase := "N/A", study_type := none, enrollment := none,
        eligibility_criteria := none, minimum_age := none, maximum_age := none,
        sex := none, healthy_volunteers := none, brief_summary := none,
        detailed_description := none, sponsor := none, collaborators := [],
        locations := [], central_contacts := [], interventions := [],
        primary_outcomes := [],
        source_url := "https://clinicaltrials.gov/study/None" } := by decide

/-! #### C2: the fingerprint function -/

/-- C2 counterexample.  Two parsed records that agree on (title, status,
eligibility criteria) when null is treated as the empty string — one has
the three fields null, the other has them as empty strings — nevertheless
hash differently, because the f-string renders null as "None", not "". -/
theorem hash_null_as_empty_counterexample :
    digestFieldsAgree nullParsed emptiedFieldsParsed ∧
    hash_trial_data nullParsed ≠ hash_trial_data emptiedFieldsParsed := by
  unfold digestFieldsAgree nullAsEmpty
  set_option maxRecDepth 10000 in decide

/-- C2 (amended).  `hash_trial_data` is a deterministic function of exactly
the f-string renderings of title, status and eligibility criteria — null
rendered as the text "None", not as the empty string; records agreeing on
those renderings hash identically regardless of every other field, and
repeated applications yield the same digest. -/
theorem hash_trial_data_fields_only :
    (∀ t1 t2 : ParsedTrial,
        pyStr t1.title = pyStr t2.title →
        pyStr t1.status = pyStr t2.status →
        pyStr t1.eligibility_criteria = pyStr t2.eligibility_criteria →
        hash_trial_data t1 = hash_trial_data t2) ∧
    (∀ t : ParsedTrial, hash_trial_data t = hash_trial_data t) := by
  refine ⟨fun t1 t2 h1 h2 h3 => ?_, fun t => rfl⟩
  simp only [hash_trial_data, h1, h2, h3]

/-- Witness for C2 (amended): `nullParsed` and a copy differing in an
undigested field (official title) hash identically. -/
theorem hash_trial_data_fields_only_witness :
    hash_trial_data nullParsed =
      hash_trial_data { nullParsed with official_title := some "different" } :=
  hash_trial_data_fields_only.1 nullParsed
    { nullParsed with official_title := some "different" } rfl rfl rfl

/-! #### C8: renderer totality and placeholders -/

/-- C8 counterexample.  An absent (null) `healthy_volunteers` renders
exactly like the real value `False` — the text "No" — so an absent optional
field is rendered as real-looking data, not as a distinguishable
placeholder token; likewise the absent scalars render as "None" (the
f-string text for `None`), not as the renderer's dead "N/A" defaults. -/
theorem render_absent_field_counterexample :
    generate_trial_markdown nullParsed =
      generate_trial_markdown { nullParsed with healthy_volunteers := some false } ∧
    nullParsed.healthy_volunteers = none := by
  set_option maxRecDepth 10000 in decide

/-- C8 (amended).  `generate_trial_markdown` is total (a Lean function) and
renders empty interventions/locations/contacts lists as the explicit
"none listed" sentinels; absent scalar fields passed as null render as the
f-string text "None" (the `.get` defaults such as "N/A" never fire because
normalizer output has every key present), and an absent
`healthy_volunteers` renders as "No".  The second conjunct pins the full
rendering of the all-null record. -/
theorem generate_markdown_sentinels :
    (∀ t : ParsedTrial, t.interventions = [] → t.locations = [] →
        t.central_contacts = [] →
      ∃ a b c d : String,
        generate_trial_markdown t =
          a ++ "- No interventions listed" ++ b ++ "- No locations listed" ++ c ++
            "- No central contacts listed" ++ d)
  ∧ generate_trial_markdown nullParsed =
      "# Trial: None\n\n## Basic Info\n- **Title:** None\n- **Official Title:** None\n- **Phase:** N/A\n- **Status:** None\n- **Study Type:** None\n- **Sponsor:** None\n- **Enrollment:** None participants\n\n## Description\nNone\n\n## Interventions\n- No interventions listed\n\n## Eligibility Criteria\n\nNone\n\n### Key Requirements\n- **Minimum Age:** None\n- **Maximum Age:** None\n- **Sex:** None\n- **Healthy Volunteers:** No\n\n## Locations\n- No locations listed\n\n## Contacts\n- No central contacts listed\n\n## Dates\n- **Start Date:** None\n- **Completion Date:** None\n- **Last Updated:** None\n\n## Source\n- **ClinicalTrials.gov:** https://clinicaltrials.gov/study/None\n- **NCT ID:** None\n" := by
  constructor
  · intro t hi hl hc
    refine ⟨"# Trial: " ++ pyStr t.nct_id ++ "\n\n" ++ "## Basic Info\n" ++
      "- **Title:** " ++ pyStr t.title ++ "\n" ++
      "- **Official Title:** " ++ pyStr t.official_title ++ "\n" ++
      "- **Phase:** " ++ t.phase ++ "\n" ++
      "- **Status:** " ++ pyStr t.status ++ "\n" ++
      "- **Study Type:** " ++ pyStr t.study_type ++ "\n" ++
      "- **Sponsor:** " ++ pyStr t.sponsor ++ "\n" ++
      "- **Enrollment:** " ++ pyInt t.enrollment ++ " participants\n\n" ++
      "## Description\n" ++ pyStr t.brief_summary ++ "\n\n" ++
      "## Interventions\n",
      "\n\n" ++ "## Eligibility Criteria\n\n" ++ pyStr t.eligibility_criteria ++
      "\n\n" ++ "### Key Requirements\n" ++
      "- **Minimum Age:** " ++ pyStr t.minimum_age ++ "\n" ++
      "- **Maximum Age:** " ++ pyStr t.maximum_age ++ "\n" ++
      "- **Sex:** " ++ pyStr t.sex ++ "\n" ++
      "- **Healthy Volunteers:** " ++
        (if t.healthy_volunteers == some true then "Yes" else "No") ++ "\n\n" ++
      "## Locations\n",
      "\n\n" ++ "## Contacts\n",
      "\n\n" ++ "## Dates\n" ++
      "- **Start Date:** " ++ pyStr t.start_date ++ "\n" ++
      "- **Completion Date:** " ++ pyStr t.completion_date ++ "\n" ++
      "- **Last Updated:** " ++ pyStr t.last_updated ++ "\n\n" ++
      "## Source\n" ++
      "- **ClinicalTrials.gov:** " ++ t.source_url ++ "\n" ++
      "- **NCT ID:** " ++ pyStr t.nct_id ++ "\n", ?_⟩
    simp only [generate_trial_markdown, hi, hl, hc, List.isEmpty_nil, if_true,
      String.append_assoc]
  · set_option maxRecDepth 10000 in decide

/-- Witness for C8 (amended): the sentinel decomposition at the all-null
record, whose three lists are empty. -/
theorem generate_markdown_sentinels_witness :
    ∃ a b c d : String,
      generate_trial_markdown nullParsed =
        a ++ "- No interventions listed" ++ b ++ "- No locations listed" ++ c ++
          "- No central contacts listed" ++ d :=
  generate_markdown_sentinels.1 nullParsed rfl rfl rfl

/-! #### Characterizing one loop iteration (crawler.py Step 3) -/

/-- Skip branch: unchanged fingerprint in the consulted snapshot and no
forced refresh increments only `skipped_trials`; store, batch and every
other field are untouched. -/
theorem processParsed_skip (w : World) (e f : Bool) (nc : String) (ex : CrawlState)
    (ls : LoopSt) (p : ParsedTrial)
    (h : (!f && hashMatches (lookupCrawl ex p.nct_id) (hash_trial_data p)) = true) :
    processParsed w e f nc ex ls p =
      { ls with stats := { ls.stats with skipped_trials := ls.stats.skipped_trials + 1 } } := by
  simp only [processParsed, h, if_true]

/-- Processing branch: a new or changed record is counted, enriched
(best-effort), rendered, appended to the pending batch, and its crawl-state
entry is upserted into the live collection. -/
theorem processParsed_not_skip (w : World) (e f : Bool) (nc : String) (ex : CrawlState)
    (ls : LoopSt) (p : ParsedTrial)
    (h : (!f && hashMatches (lookupCrawl ex p.nct_id) (hash_trial_data p)) = false) :
    processParsed w e f nc ex ls p =
      { stats :=
          if lookupCrawl ex p.nct_id = none
          then { ls.stats with new_trials := ls.stats.new_trials + 1 }
          else { ls.stats with updated_trials := ls.stats.updated_trials + 1 },
        db := update_crawl_record ls.db p.nct_id (hash_trial_data p),
        trials_to_save := ls.trials_to_save ++
          [{ trial := p, condition := nc,
             normalized_phase := normalize_phase p.phase,
             markdown_content := generate_trial_markdown p,
             enriched_content :=
               if e then
                 match w.scrape p.nct_id with
                 | .ret scraped => if scraped.success then scraped.markdown else none
                 | .exn _ => none
               else none,
             source_hash := hash_trial_data p }] } := by
  simp only [processParsed, h, Bool.false_eq_true, if_false]

/-! #### C3: three-way classification -/

/-- C3 (confirmed).  For one fetched record processed by the loop body,
relative to the consulted crawl-state snapshot `ex` (the dict loaded once
before the loop): the record is counted as new iff no entry exists for its
identifier; it is skipped as unchanged iff an entry exists whose stored
fingerprint equals the freshly computed one and no forced refresh was
requested; in every other case it is counted as updated; and every
non-skipped record is fully processed — appended to the pending batch with
its crawl-state entry upserted. -/
theorem crawl_classification (w : World) (enrich force : Bool) (nc : String)
    (ex : CrawlState) (ls : LoopSt) (p : ParsedTrial) :
    (countsNew ls (processParsed w enrich force nc ex ls p) ↔
        lookupCrawl ex p.nct_id = none)
  ∧ (countsSkipped ls (processParsed w enrich force nc ex ls p) ↔
        force = false ∧ hashMatches (lookupCrawl ex p.nct_id) (hash_trial_data p) = true)
  ∧ (countsUpdated ls (processParsed w enrich force nc ex ls p) ↔
        (lookupCrawl ex p.nct_id).isSome = true ∧
          ¬(force = false ∧
              hashMatches (lookupCrawl ex p.nct_id) (hash_trial_data p) = true))
  ∧ (¬(force = false ∧
          hashMatches (lookupCrawl ex p.nct_id) (hash_trial_data p) = true) →
      (processParsed w enrich force nc ex ls p).trials_to_save.length
          = ls.trials_to_save.length + 1 ∧
      (processParsed w enrich force nc ex ls p).db
          = update_crawl_record ls.db p.nct_id (hash_trial_data p)) := by
  by_cases hcond :
      (!force && hashMatches (lookupCrawl ex p.nct_id) (hash_trial_data p)) = true
  · have hf : force = false := by
      cases force <;> simp_all
    have hm : hashMatches (lookupCrawl ex p.nct_id) (hash_trial_data p) = true := by
      cases hmm : hashMatches (lookupCrawl ex p.nct_id) (hash_trial_data p) <;> simp_all
    have hlk : lookupCrawl ex p.nct_id ≠ none := by
      intro hn
      rw [hn] at hm
      simp [hashMatches] at hm
    rw [processParsed_skip w enrich force nc ex ls p hcond]
    simp only [countsNew, countsSkipped, countsUpdated]
    refine ⟨?_, ?_, ?_, ?_⟩
    · simp only [iff_iff_implies_and_implies]
      constructor
      · intro hc
        omega
      · intro hn
        exact absurd hn hlk
    · simp [hf, hm]
    · constructor
      · intro hc
        omega
      · intro hc
        exact absurd ⟨hf, hm⟩ hc.2
    · intro hc
      exact absurd ⟨hf, hm⟩ hc
  · have hcond' :
        (!force && hashMatches (lookupCrawl ex p.nct_id) (hash_trial_data p)) = false := by
      cases hb : (!force && hashMatches (lookupCrawl ex p.nct_id) (hash_trial_data p)) <;>
        simp_all
    have hnot : ¬(force = false ∧
        hashMatches (lookupCrawl ex p.nct_id) (hash_trial_data p) = true) := by
      rintro ⟨h1, h2⟩
      rw [h1, h2] at hcond'
      simp at hcond'
    rw [processParsed_not_skip w enrich force nc ex ls p hcond']
    by_cases hnone : lookupCrawl ex p.nct_id = none
    · rw [if_pos hnone]
      simp only [countsNew, countsSkipped, countsUpdated]
      refine ⟨by simp [hnone], ?_, ?_, fun _ => by simp⟩
      · constructor
        · intro hc
          omega
        · rintro ⟨h1, h2⟩
          rw [hnone] at h2
          simp [hashMatches] at h2
      · constructor
        · intro hc
          omega
        · rintro ⟨h1, _⟩
          rw [hnone] at h1
          simp at h1
    · rw [if_neg hnone]
      simp only [countsNew, countsSkipped, countsUpdated]
      refine ⟨?_, ?_, ?_, fun _ => by simp⟩
      · constructor
        · intro hc
          omega
        · intro hn
          exact absurd hn hnone
      · constructor
        · intro hc
          omega
        · intro hc
          exact absurd hc hnot
      · simp [hnot, Option.isSome_iff_ne_none, hnone]

/-- Witness for C3: with an empty crawl-state snapshot, processing the
all-null record counts it as new. -/
theorem crawl_classification_witness :
    countsNew emptyLoopSt
      (processParsed noScrapeWorld false false "glioma" [] emptyLoopSt nullParsed) :=
  (crawl_classification noScrapeWorld false false "glioma" [] emptyLoopSt nullParsed).1.mpr rfl

/-! #### C6: enrichment is best-effort -/

/-- C6 (confirmed).  When enrichment is enabled and the scrape for a
new/changed record fails — returns `success: False` or raises — the record
is still rendered and appended to the pending batch with
`enriched_content = None`, and the failure adds nothing to the error
list. -/
theorem enrichment_best_effort (w : World) (force : Bool) (nc : String)
    (ex : CrawlState) (ls : LoopSt) (p : ParsedTrial)
    (hfail : scrapeFails (w.scrape p.nct_id))
    (hproc : (!force && hashMatches (lookupCrawl ex p.nct_id) (hash_trial_data p)) = false) :
    (processParsed w true force nc ex ls p).trials_to_save.map TrialDoc.enriched_content
        = ls.trials_to_save.map TrialDoc.enriched_content ++ [none]
  ∧ (processParsed w true force nc ex ls p).trials_to_save.map TrialDoc.markdown_content
        = ls.trials_to_save.map TrialDoc.markdown_content ++ [generate_trial_markdown p]
  ∧ (processParsed w true force nc ex ls p).stats.errors = ls.stats.errors := by
  rw [processParsed_not_skip w true force nc ex ls p hproc]
  have henr : (match w.scrape p.nct_id with
      | .ret scraped => if scraped.success then scraped.markdown else none
      | .exn _ => none) = none := by
    cases hs : w.scrape p.nct_id with
    | ret r =>
      have hsf : r.success = false := by simpa [scrapeFails, hs] using hfail
      simp [hsf]
    | exn m => simp
  refine ⟨?_, by simp, ?_⟩
  · simp [henr]
  · by_cases hnone : lookupCrawl ex p.nct_id = none <;> simp [hnone]

/-- Witness for C6: a failing scraper on a fresh record still yields a
batched, rendered document without enrichment and no error. -/
theorem enrichment_best_effort_witness :
    (processParsed noScrapeWorld true false "glioma" [] emptyLoopSt nullParsed).trials_to_save.map
        TrialDoc.enriched_content
      = emptyLoopSt.trials_to_save.map TrialDoc.enriched_content ++ [none]
  ∧ (processParsed noScrapeWorld true false "glioma" [] emptyLoopSt nullParsed).trials_to_save.map
        TrialDoc.markdown_content
      = emptyLoopSt.trials_to_save.map TrialDoc.markdown_content ++
          [generate_trial_markdown nullParsed]
  ∧ (processParsed noScrapeWorld true false "glioma" [] emptyLoopSt nullParsed).stats.errors
      = emptyLoopSt.stats.errors :=
  enrichment_best_effort noScrapeWorld false "glioma" [] emptyLoopSt nullParsed rfl rfl

/-! #### Loop decomposition lemmas -/

/-- Well-formed prefixes never raise: the loop folds them and continues. -/
theorem crawlLoop_wfInputs_append (w : World) (e f : Bool) (nc : String) (ex : CrawlState) :
    ∀ (rts : List RawTrial) (rest : List RawInput) (ls : LoopSt),
      crawlLoop w e f nc ex ls (wfInputs rts ++ rest) =
        crawlLoop w e f nc ex (runLoopWF w e f nc ex ls rts) rest := by
  intro rts
  induction rts with
  | nil =>
    intro rest ls
    rfl
  | cons r rs ih =>
    intro rest ls
    simp only [wfInputs, List.map_cons, List.cons_append, crawlLoop, processOne,
      runLoopWF, List.foldl_cons]
    exact ih rest _

/-- The loop on fully well-formed input equals the plain fold. -/
theorem crawlLoop_wfInputs (w : World) (e f : Bool) (nc : String) (ex : CrawlState)
    (rts : List RawTrial) (ls : LoopSt) :
    crawlLoop w e f nc ex ls (wfInputs rts) = .ok (runLoopWF w e f nc ex ls rts) := by
  have h := crawlLoop_wfInputs_append w e f nc ex rts [] ls
  simpa using h

/-- One iteration never touches the error list. -/
theorem processParsed_errors (w : World) (e f : Bool) (nc : String) (ex : CrawlState)
    (ls : LoopSt) (p : ParsedTrial) :
    (processParsed w e f nc ex ls p).stats.errors = ls.stats.errors := by
  by_cases hcond :
      (!f && hashMatches (lookupCrawl ex p.nct_id) (hash_trial_data p)) = true
  · rw [processParsed_skip w e f nc ex ls p hcond]
  · have hcond' :
        (!f && hashMatches (lookupCrawl ex p.nct_id) (hash_trial_data p)) = false := by
      cases hb : (!f && hashMatches (lookupCrawl ex p.nct_id) (hash_trial_data p)) <;>
        simp_all
    rw [processParsed_not_skip w e f nc ex ls p hcond']
    by_cases hnone : lookupCrawl ex p.nct_id = none
    · rw [if_pos hnone]
    · rw [if_neg hnone]

/-- The well-formed fold never touches the error list. -/
theorem runLoopWF_errors (w : World) (e f : Bool) (nc : String) (ex : CrawlState) :
    ∀ (rts : List RawTrial) (ls : LoopSt),
      (runLoopWF w e f nc ex ls rts).stats.errors = ls.stats.errors := by
  intro rts
  induction rts with
  | nil =>
    intro ls
    rfl
  | cons r rs ih =>
    intro ls
    simp only [runLoopWF, List.foldl_cons] at ih ⊢
    rw [ih, processParsed_errors]

/-! #### C4: a record-level exception aborts the whole loop -/

/-- C4 counterexample.  A malformed first record is caught and recorded,
but the loop does not continue: the following fresh record is neither
counted as new nor processed (the crawl index stays empty and nothing is
saved), while the claim says all remaining records are still processed. -/
theorem record_error_counterexample :
    (run_crawl noScrapeWorld "glioma" false false
        [RawInput.malformed "boom", RawInput.wellFormed sampleFreshTrial] []).stats.errors
        = ["boom"]
  ∧ (run_crawl noScrapeWorld "glioma" false false
        [RawInput.malformed "boom", RawInput.wellFormed sampleFreshTrial] []).stats.new_trials
        = 0
  ∧ (run_crawl noScrapeWorld "glioma" false false
        [RawInput.malformed "boom", RawInput.wellFormed sampleFreshTrial] []).stats.total_fetched
        = 2
  ∧ (run_crawl noScrapeWorld "glioma" false false
        [RawInput.malformed "boom", RawInput.wellFormed sampleFreshTrial] []).db = []
  ∧ (run_crawl noScrapeWorld "glioma" false false
        [RawInput.malformed "boom", RawInput.wellFormed sampleFreshTrial] []).saved = none := by
  decide

/-- C4 (amended).  A record-level exception is caught by the run-level
handler and its message appended to the error list, and `run_crawl` still
returns statistics — but the loop aborts at the failing record: the
records before it keep their effects, the failing record and every record
after it are not processed, and the pending batch is never saved. -/
theorem record_error_aborts_run (w : World) (c : String) (e f : Bool)
    (pre : List RawTrial) (m : String) (post : List RawInput) (db0 : CrawlState) :
    let raws := wfInputs pre ++ RawInput.malformed m :: post
    let ls := runLoopWF w e f (normalize_condition c) (get_all_crawl_records db0)
      (initLoopSt c raws db0) pre
    run_crawl w c e f raws db0 =
      { stats := { ls.stats with errors := ls.stats.errors ++ [m] },
        db := ls.db, saved := none }
  ∧ (run_crawl w c e f raws db0).stats.errors = [m] := by
  intro raws ls
  have hne : raws.isEmpty = false := by
    cases pre <;> simp [raws, wfInputs]
  have hloop : crawlLoop w e f (normalize_condition c) (get_all_crawl_records db0)
      (initLoopSt c raws db0) raws = .error (m, ls) := by
    show crawlLoop w e f (normalize_condition c) (get_all_crawl_records db0)
        (initLoopSt c raws db0) (wfInputs pre ++ RawInput.malformed m :: post) = _
    rw [crawlLoop_wfInputs_append]
    rfl
  have hmain : run_crawl w c e f raws db0 =
      { stats := { ls.stats with errors := ls.stats.errors ++ [m] },
        db := ls.db, saved := none } := by
    rw [run_crawl, hne]
    simp only [Bool.false_eq_true, if_false, hloop]
  refine ⟨hmain, ?_⟩
  rw [hmain]
  have herr : ls.stats.errors = [] := by
    show (runLoopWF w e f (normalize_condition c) (get_all_crawl_records db0)
      (initLoopSt c raws db0) pre).stats.errors = []
    rw [runLoopWF_errors]
    rfl
  simp [herr]

/-! #### C5: bulk-save failure is absorbed, not propagated -/

/-- The loop never consults the save outcome. -/
theorem crawlLoop_saveFails_irrelevant (scrape : Option String → ScrapeOutcome)
    (a b : Option String) (e f : Bool) (nc : String) (ex : CrawlState) :
    ∀ (raws : List RawInput) (ls : LoopSt),
      crawlLoop { scrape := scrape, saveFails := a } e f nc ex ls raws =
        crawlLoop { scrape := scrape, saveFails := b } e f nc ex ls raws := by
  intro raws
  induction raws with
  | nil =>
    intro ls
    rfl
  | cons r rest ih =>
    intro ls
    cases r with
    | wellFormed rt =>
      simp only [crawlLoop, processOne]
      exact ih _
    | malformed m => rfl

/-- C5 counterexample.  With a failing bulk save, `run_crawl` does not
propagate an exception: it returns statistics normally, with the failure
message absorbed into the error list and nothing saved. -/
theorem save_failure_counterexample :
    (run_crawl failingSaveWorld "glioma" false false
        [RawInput.wellFormed sampleFreshTrial] []).stats.errors = ["db down"]
  ∧ (run_crawl failingSaveWorld "glioma" false false
        [RawInput.wellFormed sampleFreshTrial] []).saved = none
  ∧ (run_crawl failingSaveWorld "glioma" false false
        [RawInput.wellFormed sampleFreshTrial] []).stats.new_trials = 1 := by
  set_option maxRecDepth 100000 in decide

/-- C5 (amended).  A `save_trials` failure is caught by the run-level
handler: compared to the same run with a succeeding save, the returned
statistics are identical except that the failure message is appended to
the error list exactly when the save was attempted; nothing reaches the
record store, there is no retry, and no rollback — the crawl-state updates
persist exactly as in the successful run. -/
theorem save_failure_absorbed (scrape : Option String → ScrapeOutcome) (m : String)
    (c : String) (e f : Bool) (raws : List RawInput) (db0 : CrawlState) :
    let ok := run_crawl { scrape := scrape, saveFails := none } c e f raws db0
    let bad := run_crawl { scrape := scrape, saveFails := some m } c e f raws db0
    bad.db = ok.db
  ∧ bad.saved = none
  ∧ bad.stats.total_fetched = ok.stats.total_fetched
  ∧ bad.stats.new_trials = ok.stats.new_trials
  ∧ bad.stats.updated_trials = ok.stats.updated_trials
  ∧ bad.stats.skipped_trials = ok.stats.skipped_trials
  ∧ bad.stats.errors = ok.stats.errors ++
      (match ok.saved with
       | some _ => [m]
       | none => []) := by
  intro ok bad
  unfold ok bad
  by_cases hemp : raws.isEmpty = true
  · simp [run_crawl, hemp]
  · have hemp' : raws.isEmpty = false := by
      cases hb : raws.isEmpty <;> simp_all
    simp only [run_crawl, hemp', Bool.false_eq_true, if_false]
    rw [crawlLoop_saveFails_irrelevant scrape (some m) none e f (normalize_condition c)
      (get_all_crawl_records db0)]
    cases hloop : crawlLoop { scrape := scrape, saveFails := none } e f
        (normalize_condition c) (get_all_crawl_records db0)
        (initLoopSt c raws db0) raws with
    | error err => simp
    | ok ls =>
      by_cases hsave : ls.trials_to_save.isEmpty = true
      · simp [hsave]
      · have hsave' : ls.trials_to_save.isEmpty = false := by
          cases hb : ls.trials_to_save.isEmpty <;> simp_all
        simp [hsave']

/-! #### C1: idempotence of the pipeline and the snapshot window -/

/-- Upsert then lookup at the same key. -/
theorem lookupCrawl_update_self (db : CrawlState) (k : Option String) (h : String) :
    lookupCrawl (update_crawl_record db k h) k = some { source_hash := some h } := by
  induction db with
  | nil => simp [update_crawl_record, lookupCrawl]
  | cons kv rest ih =>
    obtain ⟨k', e⟩ := kv
    by_cases hk : k' = k
    · simp [update_crawl_record, lookupCrawl, hk]
    · simp [update_crawl_record, lookupCrawl, hk, ih]

/-- Upsert leaves other keys unchanged. -/
theorem lookupCrawl_update_other (db : CrawlState) (k q : Option String) (h : String)
    (hne : q ≠ k) :
    lookupCrawl (update_crawl_record db k h) q = lookupCrawl db q := by
  have hne' : ¬ (k = q) := fun hh => hne hh.symm
  induction db with
  | nil => simp [update_crawl_record, lookupCrawl, hne']
  | cons kv rest ih =>
    obtain ⟨k', e⟩ := kv
    by_cases hk : k' = k
    · subst hk
      simp [update_crawl_record, lookupCrawl, hne']
    · simp only [update_crawl_record, hk, if_false, lookupCrawl]
      by_cases hq : k' = q
      · simp [hq]
      · simp [hq, ih]

/-- A hit in the truncated snapshot is a hit in the full collection
(first-match lookup agrees on prefixes). -/
theorem lookupCrawl_take (db : CrawlState) (n : Nat) (k : Option String) (e : CrawlEntry)
    (h : lookupCrawl (db.take n) k = some e) : lookupCrawl db k = some e := by
  induction db generalizing n with
  | nil => simpa using h
  | cons kv rest ih =>
    cases n with
    | zero => simp [lookupCrawl] at h
    | succ n =>
      obtain ⟨k', e'⟩ := kv
      simp only [List.take_succ_cons, lookupCrawl] at h ⊢
      by_cases hk : k' = k
      · simpa [hk] using h
      · rw [if_neg hk] at h ⊢
        exact ih n h

/-- Keys absent from the map look up to `none`. -/
theorem lookupCrawl_eq_none (db : CrawlState) (k : Option String)
    (h : ∀ kv ∈ db, kv.1 ≠ k) : lookupCrawl db k = none := by
  induction db with
  | nil => rfl
  | cons kv rest ih =>
    obtain ⟨k', e'⟩ := kv
    have hk : k' ≠ k := h (k', e') (List.mem_cons_self _ _)
    simp only [lookupCrawl, hk, if_false]
    exact ih fun kv hkv => h kv (List.mem_cons_of_mem _ hkv)

/-- Upserting an absent key appends the new document at the end of the
collection (a Mongo insert). -/
theorem update_crawl_record_append (db : CrawlState) (k : Option String) (h : String)
    (habs : ∀ kv ∈ db, kv.1 ≠ k) :
    update_crawl_record db k h = db ++ [(k, { source_hash := some h })] := by
  induction db with
  | nil => rfl
  | cons kv rest ih =>
    obtain ⟨k', e'⟩ := kv
    have hk : k' ≠ k := habs (k', e') (List.mem_cons_self _ _)
    simp only [update_crawl_record]
    rw [if_neg hk, ih fun kv hkv => habs kv (List.mem_cons_of_mem _ hkv)]
    rfl

/-- Lookup skips a prefix holding no match. -/
theorem lookupCrawl_append_right (db l2 : CrawlState) (k : Option String)
    (h : ∀ kv ∈ db, kv.1 ≠ k) :
    lookupCrawl (db ++ l2) k = lookupCrawl l2 k := by
  induction db with
  | nil => rfl
  | cons kv rest ih =>
    obtain ⟨k', e'⟩ := kv
    have hk : k' ≠ k := h (k', e') (List.mem_cons_self _ _)
    simp only [List.cons_append, lookupCrawl]
    rw [if_neg hk]
    exact ih fun kv hkv => h kv (List.mem_cons_of_mem _ hkv)

/-- One iteration either leaves the store unchanged (skip) or upserts
exactly its own record's entry. -/
theorem processParsed_db_cases (w : World) (e f : Bool) (nc : String) (ex : CrawlState)
    (ls : LoopSt) (p : ParsedTrial) :
    (processParsed w e f nc ex ls p).db = ls.db ∨
    (processParsed w e f nc ex ls p).db = update_crawl_record ls.db p.nct_id (hash_trial_data p) := by
  by_cases hcond :
      (!f && hashMatches (lookupCrawl ex p.nct_id) (hash_trial_data p)) = true
  · left
    rw [processParsed_skip w e f nc ex ls p hcond]
  · right
    have hcond' :
        (!f && hashMatches (lookupCrawl ex p.nct_id) (hash_trial_data p)) = false := by
      cases hb : (!f && hashMatches (lookupCrawl ex p.nct_id) (hash_trial_data p)) <;>
        simp_all
    rw [processParsed_not_skip w e f nc ex ls p hcond']

/-- Keys not touched by any record of the fold keep their entry. -/
theorem runLoopWF_db_preserve (w : World) (e f : Bool) (nc : String) (ex : CrawlState) :
    ∀ (rts : List RawTrial) (ls : LoopSt) (q : Option String),
      (∀ r ∈ rts, (parse_trial_data r).nct_id ≠ q) →
      lookupCrawl (runLoopWF w e f nc ex ls rts).db q = lookupCrawl ls.db q := by
  intro rts
  induction rts with
  | nil =>
    intro ls q _
    rfl
  | cons r rs ih =>
    intro ls q hq
    simp only [runLoopWF, List.foldl_cons]
    have hstep := ih (processParsed w e f nc ex ls (parse_trial_data r)) q
      (fun r' hr' => hq r' (List.mem_cons_of_mem r hr'))
    simp only [runLoopWF] at hstep
    rw [hstep]
    rcases processParsed_db_cases w e f nc ex ls (parse_trial_data r) with hc | hc
    · rw [hc]
    · rw [hc, lookupCrawl_update_other _ _ _ _ (hq r (List.mem_cons_self r rs)).symm]

/-- After the fold, every folded record's entry in the live collection
holds its own fingerprint, provided the consulted snapshot's hits agree
with the collection (identifiers pairwise distinct, per the record-store
invariant). -/
theorem runLoopWF_lookup_self (w : World) (e f : Bool) (nc : String) (ex : CrawlState) :
    ∀ (rts : List RawTrial) (ls : LoopSt),
      (rts.map fun r => (parse_trial_data r).nct_id).Nodup →
      (∀ r ∈ rts, ∀ en, lookupCrawl ex (parse_trial_data r).nct_id = some en →
        lookupCrawl ls.db (parse_trial_data r).nct_id = some en) →
      ∀ r ∈ rts,
        ∃ en, lookupCrawl (runLoopWF w e f nc ex ls rts).db (parse_trial_data r).nct_id = some en ∧
          en.source_hash = some (hash_trial_data (parse_trial_data r)) := by
  intro rts
  induction rts with
  | nil =>
    intro ls _ _ r hr
    exact absurd hr (List.not_mem_nil r)
  | cons r0 rs ih =>
    intro ls hnd hpre r hr
    have hnd' := hnd
    rw [List.map_cons, List.nodup_cons] at hnd'
    obtain ⟨hhead, htail⟩ := hnd'
    rcases List.mem_cons.mp hr with hEq | hmem
    · subst hEq
      simp only [runLoopWF, List.foldl_cons]
      have hpres := runLoopWF_db_preserve w e f nc ex rs
        (processParsed w e f nc ex ls (parse_trial_data r)) (parse_trial_data r).nct_id
        (fun r' hr' hcontra => hhead (hcontra ▸ List.mem_map_of_mem (fun x => (parse_trial_data x).nct_id) hr'))
      simp only [runLoopWF] at hpres
      rw [hpres]
      by_cases hcond : (!f && hashMatches (lookupCrawl ex (parse_trial_data r).nct_id)
          (hash_trial_data (parse_trial_data r))) = true
      · rw [processParsed_skip w e f nc ex ls (parse_trial_data r) hcond]
        have hm : hashMatches (lookupCrawl ex (parse_trial_data r).nct_id)
            (hash_trial_data (parse_trial_data r)) = true := by
          cases hmm : hashMatches (lookupCrawl ex (parse_trial_data r).nct_id)
              (hash_trial_data (parse_trial_data r)) <;> simp_all
        cases hlk : lookupCrawl ex (parse_trial_data r).nct_id with
        | none => rw [hlk] at hm; simp [hashMatches] at hm
        | some en =>
          rw [hlk] at hm
          simp only [hashMatches, beq_iff_eq] at hm
          exact ⟨en, hpre r (List.mem_cons_self r rs) en hlk, hm⟩
      · have hcond' : (!f && hashMatches (lookupCrawl ex (parse_trial_data r).nct_id)
            (hash_trial_data (parse_trial_data r))) = false := by
          cases hb : (!f && hashMatches (lookupCrawl ex (parse_trial_data r).nct_id)
              (hash_trial_data (parse_trial_data r))) <;> simp_all
        rw [processParsed_not_skip w e f nc ex ls (parse_trial_data r) hcond']
        exact ⟨{ source_hash := some (hash_trial_data (parse_trial_data r)) },
          lookupCrawl_update_self _ _ _, rfl⟩
    · simp only [runLoopWF, List.foldl_cons]
      have hpre' : ∀ r' ∈ rs, ∀ en, lookupCrawl ex (parse_trial_data r').nct_id = some en →
          lookupCrawl (processParsed w e f nc ex ls (parse_trial_data r0)).db
            (parse_trial_data r').nct_id = some en := by
        intro r' hr' en hen
        rcases processParsed_db_cases w e f nc ex ls (parse_trial_data r0) with hc | hc
        · rw [hc]
          exact hpre r' (List.mem_cons_of_mem r0 hr') en hen
        · have hne' : (parse_trial_data r').nct_id ≠ (parse_trial_data r0).nct_id := by
            intro hcontra
            exact hhead (hcontra ▸ List.mem_map_of_mem (fun x => (parse_trial_data x).nct_id) hr')
          rw [hc, lookupCrawl_update_other _ _ _ _ hne']
          exact hpre r' (List.mem_cons_of_mem r0 hr') en hen
      have := ih (processParsed w e f nc ex ls (parse_trial_data r0)) htail hpre' r hmem
      simpa [runLoopWF] using this

/-- With every fetched record's fingerprint in the consulted snapshot, a
non-force-refresh fold skips everything and changes nothing else. -/
theorem runLoopWF_all_skipped (w : World) (e : Bool) (nc : String) (ex : CrawlState) :
    ∀ (rts : List RawTrial) (ls : LoopSt),
      (∀ r ∈ rts,
        ∃ en, lookupCrawl ex (parse_trial_data r).nct_id = some en ∧
          en.source_hash = some (hash_trial_data (parse_trial_data r))) →
      runLoopWF w e false nc ex ls rts =
        { ls with stats :=
            { ls.stats with skipped_trials := ls.stats.skipped_trials + rts.length } } := by
  intro rts
  induction rts with
  | nil =>
    intro ls _
    rfl
  | cons r rs ih =>
    intro ls hgood
    obtain ⟨en, hen, hhash⟩ := hgood r (List.mem_cons_self r rs)
    have hcond : (!false && hashMatches (lookupCrawl ex (parse_trial_data r).nct_id)
        (hash_trial_data (parse_trial_data r))) = true := by
      simp [hen, hashMatches, hhash]
    simp only [runLoopWF, List.foldl_cons]
    rw [processParsed_skip w e false nc ex ls (parse_trial_data r) hcond]
    have hih := ih { ls with stats :=
        { ls.stats with skipped_trials := ls.stats.skipped_trials + 1 } }
      (fun r' hr' => hgood r' (List.mem_cons_of_mem r hr'))
    simp only [runLoopWF] at hih ⊢
    rw [hih]
    have harith : ls.stats.skipped_trials + 1 + rs.length
        = ls.stats.skipped_trials + (rs.length + 1) := by omega
    simp [harith]

/-- On well-formed input the run's final crawl index is the fold's. -/
theorem run_crawl_wf_db (w : World) (c : String) (e f : Bool)
    (rts : List RawTrial) (db0 : CrawlState) (hne : rts ≠ []) :
    (run_crawl w c e f (wfInputs rts) db0).db =
      (runLoopWF w e f (normalize_condition c) (get_all_crawl_records db0)
        (initLoopSt c (wfInputs rts) db0) rts).db := by
  have hemp : (wfInputs rts).isEmpty = false := by
    cases rts with
    | nil => exact absurd rfl hne
    | cons a l => simp [wfInputs]
  simp only [run_crawl, hemp, Bool.false_eq_true, if_false, crawlLoop_wfInputs]
  by_cases hsv : (runLoopWF w e f (normalize_condition c) (get_all_crawl_records db0)
      (initLoopSt c (wfInputs rts) db0) rts).trials_to_save.isEmpty = true
  · simp [hsv]
  · have hsv' : (runLoopWF w e f (normalize_condition c) (get_all_crawl_records db0)
        (initLoopSt c (wfInputs rts) db0) rts).trials_to_save.isEmpty = false := by
      cases hb : (runLoopWF w e f (normalize_condition c) (get_all_crawl_records db0)
          (initLoopSt c (wfInputs rts) db0) rts).trials_to_save.isEmpty <;> simp_all
    cases w.saveFails <;> simp [hsv']

/-- On well-formed input the run's counters are the fold's. -/
theorem run_crawl_wf_counters (w : World) (c : String) (e f : Bool)
    (rts : List RawTrial) (db0 : CrawlState) (hne : rts ≠ []) :
    (run_crawl w c e f (wfInputs rts) db0).stats.new_trials =
      (runLoopWF w e f (normalize_condition c) (get_all_crawl_records db0)
        (initLoopSt c (wfInputs rts) db0) rts).stats.new_trials
  ∧ (run_crawl w c e f (wfInputs rts) db0).stats.updated_trials =
      (runLoopWF w e f (normalize_condition c) (get_all_crawl_records db0)
        (initLoopSt c (wfInputs rts) db0) rts).stats.updated_trials
  ∧ (run_crawl w c e f (wfInputs rts) db0).stats.skipped_trials =
      (runLoopWF w e f (normalize_condition c) (get_all_crawl_records db0)
        (initLoopSt c (wfInputs rts) db0) rts).stats.skipped_trials
  ∧ (run_crawl w c e f (wfInputs rts) db0).stats.total_fetched =
      (runLoopWF w e f (normalize_condition c) (get_all_crawl_records db0)
        (initLoopSt c (wfInputs rts) db0) rts).stats.total_fetched := by
  have hemp : (wfInputs rts).isEmpty = false := by
    cases rts with
    | nil => exact absurd rfl hne
    | cons a l => simp [wfInputs]
  simp only [run_crawl, hemp, Bool.false_eq_true, if_false, crawlLoop_wfInputs]
  by_cases hsv : (runLoopWF w e f (normalize_condition c) (get_all_crawl_records db0)
      (initLoopSt c (wfInputs rts) db0) rts).trials_to_save.isEmpty = true
  · simp [hsv]
  · have hsv' : (runLoopWF w e f (normalize_condition c) (get_all_crawl_records db0)
        (initLoopSt c (wfInputs rts) db0) rts).trials_to_save.isEmpty = false := by
      cases hb : (runLoopWF w e f (normalize_condition c) (get_all_crawl_records db0)
          (initLoopSt c (wfInputs rts) db0) rts).trials_to_save.isEmpty <;> simp_all
    cases w.saveFails <;> simp [hsv']

/-- Length of the 10000-document filler index. -/
theorem fillerDb_length : fillerDb.length = 10000 := by
  simp [fillerDb]

/-- No filler key is the sample trial's identifier. -/
theorem fillerDb_keys : ∀ kv ∈ fillerDb, kv.1 ≠ some "NCT00000001" := by
  intro kv hm
  unfold fillerDb at hm
  obtain ⟨i, _, hi⟩ := List.mem_map.mp hm
  intro hcontra
  rw [← hi] at hcontra
  simp only [Option.some_inj] at hcontra
  have hdata : (("F" ++ toString i).data).head? = ("NCT00000001" : String).data.head? := by
    rw [hcontra]
  rw [String.data_append] at hdata
  have hF : ("F" : String).data = ['F'] := rfl
  have hN : ("NCT00000001" : String).data.head? = some 'N' := rfl
  rw [hF, hN] at hdata
  simp at hdata

/-- Store component of a processed (non-skipped) iteration. -/
theorem processParsed_db_not_skip (w : World) (e f : Bool) (nc : String) (ex : CrawlState)
    (ls : LoopSt) (p : ParsedTrial)
    (h : (!f && hashMatches (lookupCrawl ex p.nct_id) (hash_trial_data p)) = false) :
    (processParsed w e f nc ex ls p).db
      = update_crawl_record ls.db p.nct_id (hash_trial_data p) := by
  rw [processParsed_not_skip w e f nc ex ls p h]

/-- Stats component of an iteration counted as new. -/
theorem processParsed_stats_new (w : World) (e f : Bool) (nc : String) (ex : CrawlState)
    (ls : LoopSt) (p : ParsedTrial)
    (h : (!f && hashMatches (lookupCrawl ex p.nct_id) (hash_trial_data p)) = false)
    (hnone : lookupCrawl ex p.nct_id = none) :
    (processParsed w e f nc ex ls p).stats
      = { ls.stats with new_trials := ls.stats.new_trials + 1 } := by
  rw [processParsed_not_skip w e f nc ex ls p h, if_pos hnone]

/-- The loop state at Step 3 starts from the initial statistics. -/
theorem initLoopSt_stats (c : String) (raws : List RawInput) (db0 : CrawlState) :
    (initLoopSt c raws db0).stats = initStats c raws.length := rfl

/-- C1 counterexample.  With a crawl index already holding 10000 documents,
the first run persists the fresh record's fingerprint (it is appended as
document 10001 in the final collection), yet the second run — whose
`get_all_crawl_records` snapshot stops at 10000 documents — misses it and
counts the record as new again: `new_trials = 1` and `skipped_trials = 0`
instead of the claimed 0 and `total_fetched`. -/
theorem crawl_idempotent_counterexample :
    lookupCrawl (run_crawl noScrapeWorld "glioma" false false
        (wfInputs [sampleFreshTrial]) fillerDb).db (some "NCT00000001")
      = some { source_hash := some (hash_trial_data (parse_trial_data sampleFreshTrial)) }
  ∧ (run_crawl noScrapeWorld "glioma" false false (wfInputs [sampleFreshTrial])
        (run_crawl noScrapeWorld "glioma" false false
          (wfInputs [sampleFreshTrial]) fillerDb).db).stats.new_trials = 1
  ∧ (run_crawl noScrapeWorld "glioma" false false (wfInputs [sampleFreshTrial])
        (run_crawl noScrapeWorld "glioma" false false
          (wfInputs [sampleFreshTrial]) fillerDb).db).stats.skipped_trials = 0
  ∧ (run_crawl noScrapeWorld "glioma" false false (wfInputs [sampleFreshTrial])
        (run_crawl noScrapeWorld "glioma" false false
          (wfInputs [sampleFreshTrial]) fillerDb).db).stats.total_fetched = 1 := by
  have hid : (parse_trial_data sampleFreshTrial).nct_id = some "NCT00000001" := rfl
  have hlkf : lookupCrawl fillerDb (some "NCT00000001") = none :=
    lookupCrawl_eq_none _ _ fillerDb_keys
  have hsnap1 : get_all_crawl_records fillerDb = fillerDb :=
    List.take_of_length_le (le_of_eq fillerDb_length)
  have hne1 : [sampleFreshTrial] ≠ ([] : List RawTrial) := by simp
  have hinitdb : (initLoopSt "glioma" (wfInputs [sampleFreshTrial]) fillerDb).db
      = fillerDb := by
    simp only [initLoopSt]
  have hcond : (!false && hashMatches
      (lookupCrawl (get_all_crawl_records fillerDb) (parse_trial_data sampleFreshTrial).nct_id)
      (hash_trial_data (parse_trial_data sampleFreshTrial))) = false := by
    rw [hsnap1, hid, hlkf]
    rfl
  have hdb1 : (run_crawl noScrapeWorld "glioma" false false
      (wfInputs [sampleFreshTrial]) fillerDb).db =
      fillerDb ++ [(some "NCT00000001",
        { source_hash := some (hash_trial_data (parse_trial_data sampleFreshTrial)) })] := by
    rw [run_crawl_wf_db noScrapeWorld "glioma" false false [sampleFreshTrial] fillerDb hne1]
    simp only [runLoopWF, List.foldl_cons, List.foldl_nil]
    rw [processParsed_db_not_skip _ _ _ _ _ _ _ hcond, hinitdb, hid]
    exact update_crawl_record_append fillerDb _ _ fillerDb_keys
  have hsnap2 : get_all_crawl_records (run_crawl noScrapeWorld "glioma" false false
      (wfInputs [sampleFreshTrial]) fillerDb).db = fillerDb := by
    rw [hdb1]
    exact List.take_left' fillerDb_length
  have hcond2 : (!false && hashMatches
      (lookupCrawl (get_all_crawl_records (run_crawl noScrapeWorld "glioma" false false
          (wfInputs [sampleFreshTrial]) fillerDb).db)
        (parse_trial_data sampleFreshTrial).nct_id)
      (hash_trial_data (parse_trial_data sampleFreshTrial))) = false := by
    rw [hsnap2, hid, hlkf]
    rfl
  have hnone2 : lookupCrawl (get_all_crawl_records (run_crawl noScrapeWorld "glioma" false false
      (wfInputs [sampleFreshTrial]) fillerDb).db) (parse_trial_data sampleFreshTrial).nct_id
      = none := by
    rw [hsnap2, hid]
    exact hlkf
  obtain ⟨hn2, hu2, hs2, ht2⟩ := run_crawl_wf_counters noScrapeWorld "glioma" false false
    [sampleFreshTrial] (run_crawl noScrapeWorld "glioma" false false
      (wfInputs [sampleFreshTrial]) fillerDb).db hne1
  refine ⟨?_, ?_, ?_, ?_⟩
  · rw [hdb1, lookupCrawl_append_right _ _ _ fillerDb_keys]
    rfl
  · rw [hn2]
    simp only [runLoopWF, List.foldl_cons, List.foldl_nil]
    rw [processParsed_stats_new _ _ _ _ _ _ _ hcond2 hnone2, initLoopSt_stats]
    rfl
  · rw [hs2]
    simp only [runLoopWF, List.foldl_cons, List.foldl_nil]
    rw [processParsed_stats_new _ _ _ _ _ _ _ hcond2 hnone2, initLoopSt_stats]
    rfl
  · rw [ht2]
    simp only [runLoopWF, List.foldl_cons, List.foldl_nil]
    rw [processParsed_stats_new _ _ _ _ _ _ _ hcond2 hnone2, initLoopSt_stats]
    rfl

/-- C1 (amended).  Idempotence within the snapshot window: running
`run_crawl` a second time over the same fetched records, starting from the
crawl index left by the first run and with `force_refresh = False`,
classifies every record as unchanged — zero new and zero updated trials
and a skip count equal to the fetched count — provided the first run's
final crawl index holds at most 10000 documents, so that the second run's
`get_all_crawl_records` snapshot covers it.  The fetched identifiers are
assumed pairwise distinct, per the record-store uniqueness invariant; the
two runs may differ in world, condition string, enrichment flag, and the
first run's `force_refresh`, and the result holds even if the first run's
bulk save failed (the crawl index was already updated per record). -/
theorem crawl_idempotent (w1 w2 : World) (c1 c2 : String) (e1 e2 f1 : Bool)
    (rts : List RawTrial) (db0 : CrawlState)
    (hnd : (rts.map fun r => (parse_trial_data r).nct_id).Nodup)
    (hcap : (run_crawl w1 c1 e1 f1 (wfInputs rts) db0).db.length ≤ 10000) :
    let res1 := run_crawl w1 c1 e1 f1 (wfInputs rts) db0
    let res2 := run_crawl w2 c2 e2 false (wfInputs rts) res1.db
    res2.stats.new_trials = 0 ∧ res2.stats.updated_trials = 0 ∧
    res2.stats.skipped_trials = res2.stats.total_fetched ∧
    res2.stats.total_fetched = rts.length := by
  intro res1 res2
  unfold res2 res1
  by_cases hrts : rts = []
  · subst hrts
    simp [run_crawl, wfInputs, initStats]
  · have hgood : ∀ r ∈ rts,
        ∃ en, lookupCrawl (run_crawl w1 c1 e1 f1 (wfInputs rts) db0).db
            (parse_trial_data r).nct_id = some en ∧
          en.source_hash = some (hash_trial_data (parse_trial_data r)) := by
      rw [run_crawl_wf_db w1 c1 e1 f1 rts db0 hrts]
      exact runLoopWF_lookup_self w1 e1 f1 (normalize_condition c1)
        (get_all_crawl_records db0) rts (initLoopSt c1 (wfInputs rts) db0) hnd
        (fun r hr en hen => lookupCrawl_take db0 10000 (parse_trial_data r).nct_id en hen)
    have hsnap : get_all_crawl_records (run_crawl w1 c1 e1 f1 (wfInputs rts) db0).db
        = (run_crawl w1 c1 e1 f1 (wfInputs rts) db0).db :=
      List.take_of_length_le hcap
    have hskip := runLoopWF_all_skipped w2 e2 (normalize_condition c2)
      (get_all_crawl_records (run_crawl w1 c1 e1 f1 (wfInputs rts) db0).db) rts
      (initLoopSt c2 (wfInputs rts) (run_crawl w1 c1 e1 f1 (wfInputs rts) db0).db)
      (by
        intro r hr
        rw [hsnap]
        exact hgood r hr)
    have hcnt := run_crawl_wf_counters w2 c2 e2 false rts
      (run_crawl w1 c1 e1 f1 (wfInputs rts) db0).db hrts
    obtain ⟨hn, hu, hs, ht⟩ := hcnt
    rw [hn, hu, hs, ht, hskip]
    simp [initLoopSt, initStats, wfInputs]

/-- Witness for C1 (amended): one fresh record and an empty initial crawl
index, whose one-document final index fits the snapshot window. -/
theorem crawl_idempotent_witness :
    (run_crawl noScrapeWorld "glioma" false false (wfInputs [sampleFreshTrial])
        (run_crawl noScrapeWorld "glioma" false false
          (wfInputs [sampleFreshTrial]) []).db).stats.new_trials = 0
  ∧ (run_crawl noScrapeWorld "glioma" false false (wfInputs [sampleFreshTrial])
        (run_crawl noScrapeWorld "glioma" false false
          (wfInputs [sampleFreshTrial]) []).db).stats.updated_trials = 0
  ∧ (run_crawl noScrapeWorld "glioma" false false (wfInputs [sampleFreshTrial])
        (run_crawl noScrapeWorld "glioma" false false
          (wfInputs [sampleFreshTrial]) []).db).stats.skipped_trials
      = (run_crawl noScrapeWorld "glioma" false false (wfInputs [sampleFreshTrial])
          (run_crawl noScrapeWorld "glioma" false false
            (wfInputs [sampleFreshTrial]) []).db).stats.total_fetched
  ∧ (run_crawl noScrapeWorld "glioma" false false (wfInputs [sampleFreshTrial])
        (run_crawl noScrapeWorld "glioma" false false
          (wfInputs [sampleFreshTrial]) []).db).stats.total_fetched
      = [sampleFreshTrial].length :=
  crawl_idempotent noScrapeWorld noScrapeWorld "glioma" "glioma" false false false
    [sampleFreshTrial] [] (by decide) (by decide)

/-! #### C10: `normalize_condition` is canonical and idempotent -/

/-- Every character the collapse emits is in `[a-z0-9_]`. -/
theorem collapseNonAlnum_mem :
    ∀ (l : List Char) (b : Bool) (c : Char), c ∈ collapseNonAlnum l b → okChar c = true := by
  intro l
  induction l with
  | nil =>
    intro b c hc
    exact absurd hc (List.not_mem_nil c)
  | cons a t ih =>
    intro b c hc
    by_cases ha : isLowerAlnum a = true
    · simp only [collapseNonAlnum, ha, if_true] at hc
      rcases List.mem_cons.mp hc with hEq | hmem
      · subst hEq
        simp [okChar, ha]
      · exact ih false c hmem
    · simp only [collapseNonAlnum, ha, Bool.false_eq_true, if_false] at hc
      cases b with
      | true => exact ih true c hc
      | false =>
        simp only [Bool.false_eq_true, if_false] at hc
        rcases List.mem_cons.mp hc with hEq | hmem
        · subst hEq
          simp [okChar]
        · exact ih true c hmem

/-- After an emitted underscore (`inRun = true`) the collapse never starts
with another underscore. -/
theorem collapseNonAlnum_head :
    ∀ (l : List Char) (c : Char), (collapseNonAlnum l true).head? = some c → c ≠ '_' := by
  intro l
  induction l with
  | nil =>
    intro c hc
    simp [collapseNonAlnum] at hc
  | cons a t ih =>
    intro c hc
    by_cases ha : isLowerAlnum a = true
    · simp only [collapseNonAlnum, ha, if_true, List.head?_cons, Option.some_inj] at hc
      subst hc
      intro hu
      subst hu
      exact absurd ha (by decide)
    · simp only [collapseNonAlnum, ha, Bool.false_eq_true, if_false, if_true] at hc
      exact ih c hc

/-- The collapse never emits two adjacent underscores. -/
theorem collapseNonAlnum_chain :
    ∀ (l : List Char) (b : Bool), noDoubleUnderscore (collapseNonAlnum l b) := by
  intro l
  induction l with
  | nil =>
    intro b
    simp [collapseNonAlnum, noDoubleUnderscore]
  | cons a t ih =>
    intro b
    by_cases ha : isLowerAlnum a = true
    · simp only [collapseNonAlnum, ha, if_true]
      rw [noDoubleUnderscore, List.chain'_cons']
      refine ⟨?_, ih false⟩
      intro y _ hcontra
      obtain ⟨h1, _⟩ := hcontra
      subst h1
      exact absurd ha (by decide)
    · simp only [collapseNonAlnum, ha, Bool.false_eq_true, if_false]
      cases b with
      | true => exact ih true
      | false =>
        simp only [Bool.false_eq_true, if_false]
        rw [noDoubleUnderscore, List.chain'_cons']
        refine ⟨?_, ih true⟩
        intro y hy hcontra
        exact collapseNonAlnum_head t y hy hcontra.2

/-- The head of `dropWhile (· == '_')` is never an underscore. -/
theorem dropWhile_underscore_head (l : List Char) (c : Char)
    (h : (l.dropWhile fun x => x == '_').head? = some c) : c ≠ '_' := by
  have hd := List.head?_dropWhile_not (fun x => x == '_') l
  rw [h] at hd
  simpa using hd

/-- `stripUnderscores` output never starts with an underscore. -/
theorem stripUnderscores_head (l : List Char) (c : Char)
    (h : (stripUnderscores l).head? = some c) : c ≠ '_' := by
  unfold stripUnderscores at h
  rw [List.head?_reverse] at h
  have hsuf := List.dropWhile_suffix (l := (l.dropWhile fun x => x == '_').reverse)
    (fun x => x == '_')
  obtain ⟨w, hw⟩ := hsuf
  have hz : ((l.dropWhile fun x => x == '_').reverse).getLast? = some c := by
    rw [← hw, List.getLast?_append, h]
    rfl
  rw [List.getLast?_reverse] at hz
  exact dropWhile_underscore_head l c hz

/-- `stripUnderscores` output never ends with an underscore. -/
theorem stripUnderscores_getLast (l : List Char) (c : Char)
    (h : (stripUnderscores l).getLast? = some c) : c ≠ '_' := by
  unfold stripUnderscores at h
  rw [List.getLast?_reverse] at h
  exact dropWhile_underscore_head _ c h

/-- Characters survive `stripUnderscores`. -/
theorem stripUnderscores_mem (l : List Char) (c : Char)
    (h : c ∈ stripUnderscores l) : c ∈ l := by
  unfold stripUnderscores at h
  rw [List.mem_reverse] at h
  have h1 := (List.dropWhile_suffix (fun x => x == '_')).sublist.mem h
  rw [List.mem_reverse] at h1
  exact (List.dropWhile_suffix (fun x => x == '_')).sublist.mem h1

/-- `stripUnderscores` preserves the no-double-underscore invariant. -/
theorem stripUnderscores_chain (l : List Char) (h : noDoubleUnderscore l) :
    noDoubleUnderscore (stripUnderscores l) := by
  unfold stripUnderscores noDoubleUnderscore
  have h1 : noDoubleUnderscore (l.dropWhile fun x => x == '_') :=
    List.Chain'.suffix h (List.dropWhile_suffix _)
  have h2 : noDoubleUnderscore ((l.dropWhile fun x => x == '_').reverse) := by
    unfold noDoubleUnderscore
    rw [List.chain'_reverse]
    exact List.Chain'.imp (fun a b hab hcontra => hab ⟨hcontra.2, hcontra.1⟩) h1
  have h3 : noDoubleUnderscore (((l.dropWhile fun x => x == '_').reverse).dropWhile
      fun x => x == '_') :=
    List.Chain'.suffix h2 (List.dropWhile_suffix _)
  rw [List.chain'_reverse]
  exact List.Chain'.imp (fun a b hab hcontra => hab ⟨hcontra.2, hcontra.1⟩) h3

/-- `Char.toLower` fixes the output alphabet `[a-z0-9_]`. -/
theorem toLower_okChar (c : Char) (h : okChar c = true) : c.toLower = c := by
  simp only [okChar, Bool.or_eq_true, beq_iff_eq] at h
  rcases h with h | h
  · simp only [isLowerAlnum, Bool.or_eq_true, Bool.and_eq_true, decide_eq_true_eq] at h
    simp only [Char.toLower]
    rw [if_neg]
    omega
  · subst h
    decide

/-- Mapping `Char.toLower` over canonical output is the identity. -/
theorem map_toLower_okChar (l : List Char) (h : ∀ c ∈ l, okChar c = true) :
    l.map Char.toLower = l := by
  have hm : l.map Char.toLower = l.map id :=
    List.map_congr_left fun c hc => toLower_okChar c (h c hc)
  simpa using hm

/-- The collapse is the identity on canonical character lists. -/
theorem collapseNonAlnum_id :
    ∀ (l : List Char) (b : Bool), (∀ c ∈ l, okChar c = true) → noDoubleUnderscore l →
      (b = true → ∀ c, l.head? = some c → c ≠ '_') →
      collapseNonAlnum l b = l := by
  intro l
  induction l with
  | nil =>
    intro b _ _ _
    rfl
  | cons a t ih =>
    intro b hok hch hhd
    by_cases ha : isLowerAlnum a = true
    · simp only [collapseNonAlnum, ha, if_true]
      rw [ih false (fun c hc => hok c (List.mem_cons_of_mem a hc))
        (List.Chain'.tail hch) (by intro hcontra; simp at hcontra)]
    · have ha' : a = '_' := by
        have h2 := hok a (List.mem_cons_self a t)
        simp only [okChar, Bool.or_eq_true, beq_iff_eq] at h2
        rcases h2 with h2 | h2
        · exact absurd h2 ha
        · exact h2
      cases b with
      | true =>
        exact absurd ha' (hhd rfl a rfl)
      | false =>
        simp only [collapseNonAlnum, ha, Bool.false_eq_true, if_false]
        have hht : ∀ c, t.head? = some c → c ≠ '_' := by
          intro c hc hcu
          rw [noDoubleUnderscore, List.chain'_cons'] at hch
          exact hch.1 c (by rw [hc]; rfl) ⟨ha', hcu⟩
        rw [ih true (fun c hc => hok c (List.mem_cons_of_mem a hc))
          (List.Chain'.tail hch) (fun _ => hht)]
        rw [ha']

/-- `dropWhile (· == '_')` is the identity when the head is not an
underscore. -/
theorem dropWhile_underscore_id (l : List Char)
    (h : ∀ c, l.head? = some c → c ≠ '_') :
    (l.dropWhile fun x => x == '_') = l := by
  cases l with
  | nil => rfl
  | cons a t =>
    have ha : (a == '_') = false := by
      have := h a rfl
      simpa using this
    simp [List.dropWhile_cons, ha]

/-- `stripUnderscores` is the identity on lists that neither start nor end
with an underscore. -/
theorem stripUnderscores_id (l : List Char)
    (hh : ∀ c, l.head? = some c → c ≠ '_')
    (hl : ∀ c, l.getLast? = some c → c ≠ '_') :
    stripUnderscores l = l := by
  unfold stripUnderscores
  rw [dropWhile_underscore_id l hh]
  rw [dropWhile_underscore_id l.reverse (by
    intro c hc
    rw [List.head?_reverse] at hc
    exact hl c hc)]
  exact List.reverse_reverse l

/-- C10 (confirmed).  `normalize_condition` is canonical and idempotent:
its output contains only lowercase letters, digits and underscores, never
starts or ends with an underscore, never contains two adjacent
underscores, and applying `normalize_condition` to its own output returns
it unchanged. -/
theorem normalize_condition_canonical (s : String) :
    (∀ c ∈ (normalize_condition s).data, okChar c = true)
  ∧ (∀ c, (normalize_condition s).data.head? = some c → c ≠ '_')
  ∧ (∀ c, (normalize_condition s).data.getLast? = some c → c ≠ '_')
  ∧ noDoubleUnderscore (normalize_condition s).data
  ∧ normalize_condition (normalize_condition s) = normalize_condition s := by
  have hdata : (normalize_condition s).data = normalizeChars s.data := rfl
  have hok : ∀ c ∈ normalizeChars s.data, okChar c = true := by
    intro c hc
    exact collapseNonAlnum_mem _ false c (stripUnderscores_mem _ c hc)
  have hhd : ∀ c, (normalizeChars s.data).head? = some c → c ≠ '_' :=
    fun c hc => stripUnderscores_head _ c hc
  have hlst : ∀ c, (normalizeChars s.data).getLast? = some c → c ≠ '_' :=
    fun c hc => stripUnderscores_getLast _ c hc
  have hch : noDoubleUnderscore (normalizeChars s.data) :=
    stripUnderscores_chain _ (collapseNonAlnum_chain _ false)
  refine ⟨by rw [hdata]; exact hok, by rw [hdata]; exact hhd,
    by rw [hdata]; exact hlst, by rw [hdata]; exact hch, ?_⟩
  show String.mk (normalizeChars (normalize_condition s).data) = normalize_condition s
  rw [hdata]
  have hfix : normalizeChars (normalizeChars s.data) = normalizeChars s.data := by
    show stripUnderscores (collapseNonAlnum ((normalizeChars s.data).map Char.toLower) false)
      = normalizeChars s.data
    rw [map_toLower_okChar _ hok]
    rw [collapseNonAlnum_id _ false hok hch (by intro hcontra; simp at hcontra)]
    exact stripUnderscores_id _ hhd hlst
  rw [hfix]
  rfl

/-- Witness for C10: idempotence at a concrete input. -/
theorem normalize_condition_canonical_witness :
    normalize_condition (normalize_condition "  Alzheimer Disease__2 ")
      = normalize_condition "  Alzheimer Disease__2 " :=
  (normalize_condition_canonical "  Alzheimer Disease__2 ").2.2.2.2
